import Mathlib

/-!
# Verification of the Synchro-S scheduling engine

Shallow embedding of `lib/server/scheduleService.ts`, `lib/time.ts` and
`lib/validators.ts` from the Synchro-S repository, together with proofs about
the embedded operations.

Modelling conventions:

* Calendar dates (ISO `YYYY-MM-DD` strings in the source) are embedded as `Int`
  day numbers counted from 1970-01-01.  The source compares dates only with the
  lexicographic string order (`<=`, `>=`, SQL `lte`/`gte`), which agrees with
  chronological order on ISO dates, and does arithmetic only through `addDays`,
  which becomes integer addition on day numbers.  1970-01-01 was a Thursday, so
  the JS `getUTCDay` of day number `d` is `(d + 4) % 7`.
* Clock times (`HH:mm` strings, `HH:mm:ss` in SQL) are embedded as minutes
  counted from midnight (`Nat`).  `timeToMinutes` therefore disappears, and the
  `toSqlTime`/`fromSqlTime` reformatting pair (which round-trips every valid
  time) becomes the identity and is dropped.
* The Supabase storage collaborator becomes an explicit in-memory `DB` record
  of row lists; the service's filtered queries become list filters and the
  joined sub-objects of `CLASS_SELECT` become lookups into the referenced
  tables.  JS `Map` objects keep last-set-wins semantics, modelled by a `foldl`
  lookup.  `Array.from(new Set xs)` keeps the first occurrence of each element,
  modelled by `jsSetDedup`.
* Mutating operations thread the `DB` explicitly and return
  `Except String α × DB`, so a thrown error still reports the final store
  state.  Row ids minted by the storage layer (`gen_random_uuid`) are passed in
  as parameters, as is "today" (`new Date()`), and the one storage-write
  failure the source handles specially (the enrollment insert inside
  `createScheduleWithEnrollments`) is driven by an explicit oracle flag.
  Database-side triggers (initial status log, `updated_at` touching) are not
  part of the service code and are not modelled.
-/

/-- Day number counted from 1970-01-01; stands for an ISO `YYYY-MM-DD` date. -/
abbrev Date := Int

/-- Minutes from midnight; stands for an `HH:mm` clock time. -/
abbrev Time := Nat

inductive ScheduleMode where
  | recurring
  | one_off
deriving DecidableEq, Repr

inductive ScheduleStatus where
  | planned
  | confirmed
  | completed
  | cancelled
deriving DecidableEq, Repr

inductive OverrideAction where
  | cancel
  | reschedule
  | status_only
deriving DecidableEq, Repr

inductive RoleView where
  | instructor
  | student
deriving DecidableEq, Repr


/-! ## Time utilities (`lib/time.ts`) -/

/-- `rangesOverlap`: half-open interval overlap test. -/
def rangesOverlap (startA endA startB endB : Time) : Bool :=
  decide (startA < endB) && decide (endA > startB)

/-- `addDays`: date arithmetic, integer addition on day numbers. -/
def addDays (dateISO : Date) (days : Int) : Date :=
  dateISO + days

/-- `weekRange`: `[weekStart, weekStart+6]`. -/
def weekRange (weekStartISO : Date) : Date × Date :=
  (weekStartISO, addDays weekStartISO 6)

/-- `dateToWeekday`: ISO weekday of a date, Sunday mapped to 7. -/
def dateToWeekday (dateISO : Date) : Int :=
  let jsDay := (dateISO + 4) % 7
  if jsDay == 0 then 7 else jsDay

/-! ## Request payload and validator (`lib/validators.ts`) -/

/-- `CreateScheduleRequest` / `ScheduleFormInput` from `types/schedule.ts`. -/
structure CreateScheduleRequest where
  instructorId : String
  studentIds : List String
  subjectCode : String
  classTypeCode : String
  note : String
  scheduleMode : ScheduleMode
  weekday : Option Int := none
  classDate : Option Date := none
  activeFrom : Option Date := none
  startTime : Time
  endTime : Time
deriving DecidableEq, Repr

/-- `isWeekday` applied to the optional `weekday` field. -/
def isWeekday : Option Int → Bool
  | some v => decide (1 ≤ v) && decide (v ≤ 7)
  | none => false

/-- `validateSchedulePayload`.  In the minute/day-number model times and dates
are always present and well-formed, so the string-format checks of the source
cannot fire; the remaining checks are embedded one to one.  The
`!note || note.trim().length === 0` check ("note is empty or all whitespace")
is expressed over the character list because `String.trim` does not reduce in
the kernel. -/
def validateSchedulePayload (input : CreateScheduleRequest) : List String :=
  (if input.instructorId = "" then ["instructorId is required"] else []) ++
  (if input.studentIds = [] then ["studentIds must contain at least one student"] else []) ++
  (if input.subjectCode = "" then ["subjectCode is required"] else []) ++
  (if input.classTypeCode = "" then ["classTypeCode is required"] else []) ++
  (if input.note.toList.all Char.isWhitespace then ["note is required"] else []) ++
  (if input.startTime ≥ input.endTime then ["endTime must be later than startTime"] else []) ++
  (if input.scheduleMode = ScheduleMode.recurring ∧ isWeekday input.weekday = false then
    ["weekday must be 1..7 for recurring mode"] else []) ++
  (if input.scheduleMode = ScheduleMode.one_off ∧ input.classDate = none then
    ["classDate (YYYY-MM-DD) is required for one_off mode"] else [])

/-! ## Storage rows and the in-memory database -/

structure InstructorRow where
  id : String
  instructor_name : String
deriving DecidableEq, Repr

structure StudentRow where
  id : String
  student_name : String
deriving DecidableEq, Repr

structure SubjectRow where
  code : String
  display_name : String
  tailwind_bg_class : String
deriving DecidableEq, Repr

structure ClassTypeRow where
  code : String
  display_name : String
  badge_text : String
  max_students : Nat
deriving DecidableEq, Repr

/-- A row of `classes` (the columns the service reads or writes). -/
structure ClassRow where
  id : String
  schedule_mode : ScheduleMode
  instructor_id : String
  subject_code : String
  class_type_code : String
  weekday : Option Int
  class_date : Option Date
  start_time : Time
  end_time : Time
  active_from : Date
  active_to : Option Date
  progress_status : ScheduleStatus
  created_at : String
  created_by : Option String
deriving DecidableEq, Repr

structure EnrollmentRow where
  class_id : String
  student_id : String
deriving DecidableEq, Repr

structure OverrideRow where
  class_id : String
  override_date : Date
  action : OverrideAction
  override_instructor_id : Option String
  override_start_time : Option Time
  override_end_time : Option Time
  override_status : Option ScheduleStatus
deriving DecidableEq, Repr

structure CompatRow where
  class_type_a : String
  class_type_b : String
  is_compatible : Bool
  reason : Option String
deriving DecidableEq, Repr

structure StatusLogRow where
  class_id : String
  status : ScheduleStatus
  changed_by : Option String
  reason : Option String
deriving DecidableEq, Repr

/-- The storage collaborator: one list per table the service touches. -/
structure DB where
  classes : List ClassRow
  class_enrollments : List EnrollmentRow
  class_overrides : List OverrideRow
  class_type_compatibility : List CompatRow
  class_types : List ClassTypeRow
  class_status_logs : List StatusLogRow
  instructors : List InstructorRow
  students : List StudentRow
  subjects : List SubjectRow
deriving DecidableEq, Repr

/-- `Array.from(new Set(xs))`: deduplication keeping the first occurrence of
each element in order (structural formulation: keep the head, deduplicate the
tail, drop later copies of the head). -/
def jsSetDedup : List String → List String
  | [] => []
  | x :: xs => x :: (jsSetDedup xs).filter (fun y => y != x)

/-! ## Result types (`types/schedule.ts`) -/

structure ConflictResult where
  hasConflict : Bool
  conflicts : List (String × String)
deriving DecidableEq, Repr

structure ClassTypeOption where
  code : String
  label : String
  badgeText : String
  maxStudents : Nat
deriving DecidableEq, Repr

/-! ## Conflict checker (`scheduleService.ts`, `findExistingOverlaps` and
`checkScheduleConflict`) -/

/-- JS falsiness of the `!row.active_to ||` guard: absent window end. -/
def activeToCovers (active_to : Option Date) (date : Date) : Bool :=
  match active_to with
  | none => true
  | some t => decide (t ≥ date)

/-- `findExistingOverlaps`: the instructor's stored definitions that overlap the
candidate's time range, as `(id, class_type_code)` pairs. -/
def findExistingOverlaps (db : DB) (payload : CreateScheduleRequest) (today : Date)
    (excludeClassId : Option String) : List (String × String) :=
  match payload.scheduleMode with
  | ScheduleMode.recurring =>
    let referenceDate := payload.activeFrom.getD today
    let data := db.classes.filter (fun row =>
      row.instructor_id == payload.instructorId &&
      row.schedule_mode == ScheduleMode.recurring &&
      row.weekday == payload.weekday)
    (((data.filter (fun row =>
        match excludeClassId with
        | some ex => row.id != ex
        | none => true)).filter (fun row =>
          decide (row.active_from ≤ referenceDate) && activeToCovers row.active_to referenceDate)).filter
            (fun row =>
              rangesOverlap payload.startTime payload.endTime row.start_time row.end_time)).map
      (fun row => (row.id, row.class_type_code))
  | ScheduleMode.one_off =>
    let targetDate := payload.classDate.getD 0
    let targetWeekday := dateToWeekday targetDate
    let oneOffRows := db.classes.filter (fun row =>
      row.instructor_id == payload.instructorId &&
      row.schedule_mode == ScheduleMode.one_off &&
      row.class_date == some targetDate)
    let recurringRows := db.classes.filter (fun row =>
      row.instructor_id == payload.instructorId &&
      row.schedule_mode == ScheduleMode.recurring &&
      row.weekday == some targetWeekday &&
      decide (row.active_from ≤ targetDate) && activeToCovers row.active_to targetDate)
    let rows := oneOffRows ++ recurringRows
    (((rows.filter (fun row =>
        match excludeClassId with
        | some ex => row.id != ex
        | none => true)).filter (fun row =>
          rangesOverlap payload.startTime payload.endTime row.start_time row.end_time)).map
      (fun row => (row.id, row.class_type_code)))

/-- Value stored in the compatibility map: `(is_compatible, reason)`. -/
abbrev CompatVal := Bool × Option String

/-- Lookup with JS `Map` semantics: the last `set` for a key wins. -/
def mapGet (m : List ((String × String) × CompatVal)) (k : String × String) : Option CompatVal :=
  m.foldl (fun acc e => if e.1 == k then some e.2 else acc) none

/-- Structural formulation of the last-set-wins lookup, used in proofs. -/
def lastHit {α β : Type} (p : α → Bool) (g : α → β) : List α → Option β
  | [] => none
  | x :: l =>
    match lastHit p g l with
    | some v => some v
    | none => if p x then some (g x) else none

/-- `loadCompatibilityMap`: rules touching the candidate type in either
direction, keyed by `(class_type_a, class_type_b)` in insertion order. -/
def loadCompatibilityMap (db : DB) (candidateType : String) (existingTypes : List String) :
    List ((String × String) × CompatVal) :=
  if existingTypes = [] then []
  else
    let direct := db.class_type_compatibility.filter (fun row =>
      row.class_type_a == candidateType && existingTypes.contains row.class_type_b)
    let reverse := db.class_type_compatibility.filter (fun row =>
      row.class_type_b == candidateType && existingTypes.contains row.class_type_a)
    (direct ++ reverse).map (fun row =>
      ((row.class_type_a, row.class_type_b), (row.is_compatible, row.reason)))

/-- `resolveCompatibility`: exact direction first, then the reversed pair, then
the same-type default, then the incompatible default. -/
def resolveCompatibility (compatibilityMap : List ((String × String) × CompatVal))
    (candidateType existingType : String) : Bool × String :=
  match mapGet compatibilityMap (candidateType, existingType) with
  | some direct => (direct.1, direct.2.getD "Incompatible class type overlap")
  | none =>
    match mapGet compatibilityMap (existingType, candidateType) with
    | some reverse => (reverse.1, reverse.2.getD "Incompatible class type overlap")
    | none =>
      if candidateType = existingType then
        (true, "same class type")
      else
        (false, "No compatibility rule defined for " ++ candidateType ++ " vs " ++ existingType)

/-- `checkScheduleConflict`. -/
def checkScheduleConflict (db : DB) (payload : CreateScheduleRequest) (today : Date)
    (excludeClassId : Option String) : Except String ConflictResult :=
  let errors := validateSchedulePayload payload
  if errors = [] then
    let overlaps := findExistingOverlaps db payload today excludeClassId
    if overlaps = [] then Except.ok ⟨false, []⟩
    else
      let existingTypes := jsSetDedup (overlaps.map (fun r => r.2))
      let compatibilityMap := loadCompatibilityMap db payload.classTypeCode existingTypes
      let conflicts := overlaps.filterMap (fun overlap =>
        let check := resolveCompatibility compatibilityMap payload.classTypeCode overlap.2
        if check.1 then none else some (overlap.1, check.2))
      Except.ok ⟨!conflicts.isEmpty, conflicts⟩
  else
    Except.error (String.intercalate ", " errors)
/-- The conflict list computed inside `checkScheduleConflict` (named so the
theorems can speak about it; `checkScheduleConflict` returns exactly this list
with its non-emptiness as `hasConflict`, after validation). -/
def conflictsList (db : DB) (payload : CreateScheduleRequest) (today : Date)
    (ex : Option String) : List (String × String) :=
  let overlaps := findExistingOverlaps db payload today ex
  let existingTypes := jsSetDedup (overlaps.map (fun r => r.2))
  let compatibilityMap := loadCompatibilityMap db payload.classTypeCode existingTypes
  overlaps.filterMap (fun overlap =>
    let check := resolveCompatibility compatibilityMap payload.classTypeCode overlap.2
    if check.1 then none else some (overlap.1, check.2))

/-! ## Weekly materializer (`scheduleService.ts`, `fetchWeeklySchedule`) -/

/-- `WeeklyQuery`. -/
structure WeeklyQuery where
  weekStart : Date
  view : RoleView
  instructorId : Option String := none
  studentId : Option String := none
deriving DecidableEq, Repr

/-- `ScheduleEvent` from `types/schedule.ts` (the fields `classToEvent` fills). -/
structure ScheduleEvent where
  id : String
  scheduleMode : ScheduleMode
  instructorId : String
  instructorName : String
  studentIds : List String
  studentNames : List String
  subjectCode : String
  subjectName : String
  classTypeCode : String
  classTypeLabel : String
  badgeText : String
  weekday : Int
  classDate : Date
  startTime : Time
  endTime : Time
  progressStatus : ScheduleStatus
  createdAt : String
deriving DecidableEq, Repr

structure ScheduleWeekResponse where
  weekStart : Date
  weekEnd : Date
  events : List ScheduleEvent
deriving DecidableEq, Repr

/-- JS truthiness of an optional string parameter (`undefined`/`""` are falsy). -/
def truthy : Option String → Bool
  | some s => s != ""
  | none => false

/-- The `instructors(id,instructor_name)` join of `CLASS_SELECT`. -/
def rowInstructors (db : DB) (row : ClassRow) : Option InstructorRow :=
  db.instructors.find? (fun i => i.id == row.instructor_id)

/-- The `subjects(...)` join of `CLASS_SELECT`. -/
def rowSubjects (db : DB) (row : ClassRow) : Option SubjectRow :=
  db.subjects.find? (fun s => s.code == row.subject_code)

/-- The `class_types(...)` join of `CLASS_SELECT`. -/
def rowClassTypes (db : DB) (row : ClassRow) : Option ClassTypeRow :=
  db.class_types.find? (fun t => t.code == row.class_type_code)

/-- The `students(id,student_name)` join of the enrollments query. -/
def enrollmentStudents (db : DB) (e : EnrollmentRow) : Option StudentRow :=
  db.students.find? (fun s => s.id == e.student_id)

/-- `loadClassIdsForStudent`. -/
def loadClassIdsForStudent (db : DB) (studentId : String) : List String :=
  jsSetDedup ((db.class_enrollments.filter (fun e => e.student_id == studentId)).map
    (fun e => e.class_id))

/-- The `.eq("instructor_id", ...)` filter applied to both class queries when the
view is instructor-scoped. -/
def instructorScoped (params : WeeklyQuery) (row : ClassRow) : Bool :=
  if params.view == RoleView.instructor && truthy params.instructorId then
    row.instructor_id == params.instructorId.getD ""
  else true

/-- The `.in("id", studentClassIds)` filter applied when a student scope is
present and non-empty. -/
def studentScoped (studentClassIds : Option (List String)) (row : ClassRow) : Bool :=
  match studentClassIds with
  | some ids => if ids.isEmpty then true else ids.contains row.id
  | none => true

/-- `overrideMap` lookup: `Map.set` keyed by `buildOverrideKey(classId, date)`,
last set wins. -/
def overrideMapGet (overrides : List OverrideRow) (classId : String) (date : Date) :
    Option OverrideRow :=
  overrides.foldl (fun acc o =>
    if o.class_id == classId && o.override_date == date then some o else acc) none

/-- `instructorNameMap` lookup, last set wins. -/
def nameMapGet (m : List (String × String)) (k : String) : Option String :=
  m.foldl (fun acc e => if e.1 == k then some e.2 else acc) none

/-- `instructorNameMap` construction: names joined onto the class rows, then a
supplementary `instructors` lookup for override-introduced instructors. -/
def buildInstructorNameMap (db : DB) (classRows : List ClassRow)
    (overrides : List OverrideRow) : List (String × String) :=
  let base := classRows.foldl (fun m row =>
    match rowInstructors db row with
    | some i => if i.id != "" && i.instructor_name != "" then m ++ [(i.id, i.instructor_name)] else m
    | none => m) []
  let missingInstructorIds := jsSetDedup (overrides.filterMap (fun o =>
    match o.override_instructor_id with
    | some v => if v != "" && (nameMapGet base v).isNone then some v else none
    | none => none))
  let extraInstructors := db.instructors.filter (fun i => missingInstructorIds.contains i.id)
  extraInstructors.foldl (fun m i => m ++ [(i.id, i.instructor_name)]) base

/-- `classToEvent`. -/
def classToEvent (db : DB) (row : ClassRow) (date : Date) (weekday : Int)
    (enrollments : List EnrollmentRow) (instructorNameMap : List (String × String))
    (override : Option OverrideRow) : ScheduleEvent :=
  let enr := enrollments.filter (fun e => e.class_id == row.id)
  let effectiveInstructorId := (override.bind (fun o => o.override_instructor_id)).getD
    row.instructor_id
  { id := row.id
    scheduleMode := row.schedule_mode
    instructorId := effectiveInstructorId
    instructorName :=
      (nameMapGet instructorNameMap effectiveInstructorId).getD
        (((rowInstructors db row).map (fun i => i.instructor_name)).getD "Unknown Instructor")
    studentIds := enr.map (fun e => e.student_id)
    studentNames := enr.map (fun e =>
      ((enrollmentStudents db e).map (fun s => s.student_name)).getD "Unknown Student")
    subjectCode := row.subject_code
    subjectName := ((rowSubjects db row).map (fun s => s.display_name)).getD row.subject_code
    classTypeCode := row.class_type_code
    classTypeLabel := ((rowClassTypes db row).map (fun t => t.display_name)).getD
      row.class_type_code
    badgeText := ((rowClassTypes db row).map (fun t => t.badge_text)).getD
      ("[" ++ row.class_type_code ++ "]")
    weekday := weekday
    classDate := date
    startTime := (override.bind (fun o => o.override_start_time)).getD row.start_time
    endTime := (override.bind (fun o => o.override_end_time)).getD row.end_time
    progressStatus := (override.bind (fun o => o.override_status)).getD row.progress_status
    createdAt := row.created_at }

/-- One iteration of the materialization loop: the event a class row contributes
to the requested week, if any. -/
def materializeRow (db : DB) (params : WeeklyQuery) (weekStart : Date)
    (enrollments : List EnrollmentRow) (overrides : List OverrideRow)
    (instructorNameMap : List (String × String)) (row : ClassRow) : Option ScheduleEvent :=
  if row.schedule_mode == ScheduleMode.recurring then
    match row.weekday with
    | none => none
    | some w =>
      if w == 0 then none
      else
        let classDate := addDays weekStart (w - 1)
        if classDate < row.active_from then none
        else if (match row.active_to with
            | some t => decide (classDate > t)
            | none => false) then none
        else
          let override := overrideMapGet overrides row.id classDate
          if (match override with
              | some o => o.action == OverrideAction.cancel
              | none => false) then none
          else
            let effectiveInstructorId :=
              (override.bind (fun o => o.override_instructor_id)).getD row.instructor_id
            if params.view == RoleView.instructor && truthy params.instructorId &&
                effectiveInstructorId != params.instructorId.getD "" then none
            else some (classToEvent db row classDate w enrollments instructorNameMap override)
  else
    match row.class_date with
    | none => none
    | some d =>
      let override := overrideMapGet overrides row.id d
      if (match override with
          | some o => o.action == OverrideAction.cancel
          | none => false) then none
      else
        let effectiveInstructorId :=
          (override.bind (fun o => o.override_instructor_id)).getD row.instructor_id
        if params.view == RoleView.instructor && truthy params.instructorId &&
            effectiveInstructorId != params.instructorId.getD "" then none
        else some (classToEvent db row d (dateToWeekday d) enrollments instructorNameMap override)

/-- The comparator of the final `events.sort`: date first, then start time. -/
def eventLe (a b : ScheduleEvent) : Bool :=
  if a.classDate != b.classDate then decide (a.classDate < b.classDate)
  else decide (a.startTime ≤ b.startTime)

/-- Ordered insertion used to model the comparator sort of the events list. -/
def insertSorted (e : ScheduleEvent) : List ScheduleEvent → List ScheduleEvent
  | [] => [e]
  | x :: xs => if eventLe e x then e :: x :: xs else x :: insertSorted e xs

/-- `events.sort(...)`: a permutation of the events consistent with `eventLe`. -/
def sortEvents (l : List ScheduleEvent) : List ScheduleEvent :=
  l.foldr insertSorted []

/-- The class rows the two week queries load (recurring whose active window
intersects the week, plus one-offs dated inside the week, both viewer-scoped). -/
def weekClassRows (db : DB) (params : WeeklyQuery) (weekStart weekEnd : Date)
    (studentClassIds : Option (List String)) : List ClassRow :=
  let recurringRows := db.classes.filter (fun row =>
    row.schedule_mode == ScheduleMode.recurring &&
    decide (row.active_from ≤ weekEnd) &&
    (match row.active_to with
     | none => true
     | some t => decide (t ≥ weekStart)) &&
    instructorScoped params row && studentScoped studentClassIds row)
  let oneOffRows := db.classes.filter (fun row =>
    row.schedule_mode == ScheduleMode.one_off &&
    (match row.class_date with
     | some d => decide (weekStart ≤ d) && decide (d ≤ weekEnd)
     | none => false) &&
    instructorScoped params row && studentScoped studentClassIds row)
  recurringRows ++ oneOffRows

/-- The overrides query: overrides of the loaded classes dated inside the week. -/
def weekOverrides (db : DB) (classIds : List String) (weekStart weekEnd : Date) :
    List OverrideRow :=
  db.class_overrides.filter (fun o =>
    classIds.contains o.class_id &&
    decide (weekStart ≤ o.override_date) && decide (o.override_date ≤ weekEnd))

/-- Body of `fetchWeeklySchedule` once the viewer scope is resolved; the reads
of the in-memory store cannot fail. -/
def fetchWeeklyCore (db : DB) (params : WeeklyQuery) (weekStart weekEnd : Date)
    (studentClassIds : Option (List String)) : ScheduleWeekResponse :=
  let classRows := weekClassRows db params weekStart weekEnd studentClassIds
  if classRows.isEmpty then ⟨weekStart, weekEnd, []⟩
  else
    let classIds := classRows.map (fun row => row.id)
    let enrollments := db.class_enrollments.filter (fun e => classIds.contains e.class_id)
    let overrides := weekOverrides db classIds weekStart weekEnd
    let instructorNameMap := buildInstructorNameMap db classRows overrides
    let events := classRows.filterMap
      (materializeRow db params weekStart enrollments overrides instructorNameMap)
    ⟨weekStart, weekEnd, sortEvents events⟩

/-- `fetchWeeklySchedule`. -/
def fetchWeeklySchedule (db : DB) (params : WeeklyQuery) : Except String ScheduleWeekResponse :=
  let wr := weekRange params.weekStart
  if params.view == RoleView.student then
    if !truthy params.studentId then
      Except.error "studentId is required for student view query"
    else
      let studentClassIds := loadClassIdsForStudent db (params.studentId.getD "")
      if studentClassIds.isEmpty then Except.ok ⟨wr.1, wr.2, []⟩
      else Except.ok (fetchWeeklyCore db params wr.1 wr.2 (some studentClassIds))
  else Except.ok (fetchWeeklyCore db params wr.1 wr.2 none)

/-! ## Mutation operations (`scheduleService.ts`) -/

/-- `getClassType`: single-row lookup of a class type. -/
def getClassType (db : DB) (classTypeCode : String) : Except String ClassTypeOption :=
  match db.class_types.find? (fun t => t.code == classTypeCode) with
  | some data => Except.ok ⟨data.code, data.display_name, data.badge_text, data.max_students⟩
  | none => Except.error ("Unknown class type: " ++ classTypeCode)

/-- The capacity error message thrown by `createScheduleWithEnrollments`. -/
def capacityErrorMessage (classType : ClassTypeOption) : String :=
  "Class type " ++ classType.label ++ " supports max " ++ toString classType.maxStudents ++
    " students"

/-- The structured capacity-conflict reason of `importScheduleRow` (Korean:
"capacity exceeded: {label} max {n}"). -/
def importCapacityReason (classType : ClassTypeOption) : String :=
  "정원 초과: " ++ classType.label ++ " 최대 " ++ toString classType.maxStudents ++ "명"

/-- The `classInsertPayload` row written by `createScheduleWithEnrollments`.
`active_from` falls back to the column default `current_date` when the payload
carries no `activeFrom`; `progress_status`, `active_to` and `created_at` take
their column defaults. -/
def classInsertRow (payload : CreateScheduleRequest) (actorUserId : String) (today : Date)
    (newClassId : String) : ClassRow :=
  { id := newClassId
    schedule_mode := payload.scheduleMode
    instructor_id := payload.instructorId
    subject_code := payload.subjectCode
    class_type_code := payload.classTypeCode
    weekday := if payload.scheduleMode == ScheduleMode.recurring then payload.weekday else none
    class_date := if payload.scheduleMode == ScheduleMode.one_off then payload.classDate else none
    start_time := payload.startTime
    end_time := payload.endTime
    active_from := payload.activeFrom.getD today
    active_to := none
    progress_status := ScheduleStatus.planned
    created_at := ""
    created_by := some actorUserId }

structure CreateScheduleResponse where
  classId : String
  conflict : ConflictResult
deriving DecidableEq, Repr

/-- `createScheduleWithEnrollments`.  `newClassId` is the id the storage layer
mints for the definition row; `enrollmentInsertFails` drives the one storage
failure the source compensates for (the enrollment insert). -/
def createScheduleWithEnrollments (db : DB) (payload : CreateScheduleRequest)
    (actorUserId : String) (today : Date) (newClassId : String)
    (enrollmentInsertFails : Bool) : Except String CreateScheduleResponse × DB :=
  let dedupedStudentIds := jsSetDedup payload.studentIds
  let payload' := { payload with studentIds := dedupedStudentIds }
  let errors := validateSchedulePayload payload'
  if errors = [] then
    match getClassType db payload.classTypeCode with
    | Except.error e => (Except.error e, db)
    | Except.ok classType =>
      if dedupedStudentIds.length > classType.maxStudents then
        (Except.error (capacityErrorMessage classType), db)
      else
        match checkScheduleConflict db payload' today none with
        | Except.error e => (Except.error e, db)
        | Except.ok conflict =>
          if conflict.hasConflict then (Except.ok ⟨"", conflict⟩, db)
          else
            let newRow := classInsertRow payload actorUserId today newClassId
            let db1 := { db with classes := db.classes ++ [newRow] }
            if enrollmentInsertFails then
              (Except.error "enrollment insert failed",
                { db1 with classes := db1.classes.filter (fun r => r.id != newClassId) })
            else
              let enrollmentRows := dedupedStudentIds.map (fun sid =>
                EnrollmentRow.mk newClassId sid)
              (Except.ok ⟨newClassId, conflict⟩,
                { db1 with class_enrollments := db1.class_enrollments ++ enrollmentRows })
  else (Except.error (String.intercalate ", " errors), db)

inductive ImportStatus where
  | created
  | enrolled
  | existing
  | conflict
deriving DecidableEq, Repr

structure ImportResult where
  status : ImportStatus
  classId : String
  conflict : ConflictResult
deriving DecidableEq, Repr

/-- The exact-signature match of `importScheduleRow`'s `exactQuery`. -/
def exactSignatureMatch (payload : CreateScheduleRequest) (row : ClassRow) : Bool :=
  row.schedule_mode == payload.scheduleMode &&
  row.instructor_id == payload.instructorId &&
  row.subject_code == payload.subjectCode &&
  row.class_type_code == payload.classTypeCode &&
  row.start_time == payload.startTime &&
  row.end_time == payload.endTime &&
  (if payload.scheduleMode == ScheduleMode.recurring then row.weekday == payload.weekday
   else row.class_date == payload.classDate)

/-- The active-window widening update applied to an exact-signature match
(recurring rows only): pull `active_from` back to the imported row's
`activeFrom`, clear an `active_to` that ends before it. -/
def importWiden (db : DB) (payload : CreateScheduleRequest) (classId : String)
    (existingActiveFrom : Date) (existingActiveTo : Option Date) : DB :=
  let normalizeActiveFrom :=
    if payload.scheduleMode == ScheduleMode.recurring then payload.activeFrom else none
  match normalizeActiveFrom with
  | none => db
  | some naf =>
    let updateFrom := decide (existingActiveFrom > naf)
    let clearTo :=
      match existingActiveTo with
      | some t => decide (t < naf)
      | none => false
    if updateFrom || clearTo then
      { db with classes := db.classes.map (fun r =>
          if r.id == classId then
            { r with
              active_from := if updateFrom then naf else r.active_from
              active_to := if clearTo then none else r.active_to }
          else r) }
    else db

/-- `importScheduleRow`. -/
def importScheduleRow (db : DB) (payload : CreateScheduleRequest) (actorUserId : String)
    (today : Date) (newClassId : String) (enrollmentInsertFails : Bool) :
    Except String ImportResult × DB :=
  let dedupedStudentIds := jsSetDedup payload.studentIds
  let payload' := { payload with studentIds := dedupedStudentIds }
  let errors := validateSchedulePayload payload'
  if errors = [] then
    let studentId := dedupedStudentIds.headD ""
    if studentId = "" then (Except.error "studentIds must contain at least one student", db)
    else
      let exactRows := (db.classes.filter (exactSignatureMatch payload)).take 1
      match exactRows.head? with
      | some exact =>
        let classId := exact.id
        let db2 := importWiden db payload classId exact.active_from exact.active_to
        match db.class_enrollments.find? (fun e =>
            e.class_id == classId && e.student_id == studentId) with
        | some _ => (Except.ok ⟨ImportStatus.existing, classId, ⟨false, []⟩⟩, db2)
        | none =>
          match getClassType db payload.classTypeCode with
          | Except.error e => (Except.error e, db2)
          | Except.ok classType =>
            let enrollmentCount :=
              (db2.class_enrollments.filter (fun e => e.class_id == classId)).length
            if enrollmentCount ≥ classType.maxStudents then
              (Except.ok ⟨ImportStatus.conflict, classId,
                ⟨true, [(classId, importCapacityReason classType)]⟩⟩, db2)
            else if enrollmentInsertFails then
              (Except.error "enrollment insert failed", db2)
            else
              (Except.ok ⟨ImportStatus.enrolled, classId, ⟨false, []⟩⟩,
                { db2 with class_enrollments :=
                    db2.class_enrollments ++ [EnrollmentRow.mk classId studentId] })
      | none =>
        match createScheduleWithEnrollments db payload actorUserId today newClassId
            enrollmentInsertFails with
        | (Except.error e, db') => (Except.error e, db')
        | (Except.ok created, db') =>
          if created.conflict.hasConflict then
            (Except.ok ⟨ImportStatus.conflict, "", created.conflict⟩, db')
          else
            (Except.ok ⟨ImportStatus.created, created.classId, created.conflict⟩, db')
  else (Except.error (String.intercalate ", " errors), db)

/-- `addMinutes` on minute counts (the source formats back to `HH:mm` strings
with unbounded hours, so plain addition is exact). -/
def addMinutes (time : Time) (minutesToAdd : Nat) : Time :=
  time + minutesToAdd

/-- Parameters of `checkMoveConflictForWeek`. -/
structure MoveCheckParams where
  classId : String
  instructorId : String
  classTypeCode : String
  weekStart : Date
  weekday : Int
  startTime : Time
  endTime : Time
deriving DecidableEq, Repr

/-- `checkMoveConflictForWeek`: the Move-variant conflict check runs over the
materialized events of the instructor's destination week. -/
def checkMoveConflictForWeek (db : DB) (params : MoveCheckParams) :
    Except String ConflictResult :=
  match fetchWeeklySchedule db
      { weekStart := params.weekStart, view := RoleView.instructor,
        instructorId := some params.instructorId } with
  | Except.error e => Except.error e
  | Except.ok weekly =>
    let overlaps := weekly.events.filter (fun event =>
      event.id != params.classId &&
      event.weekday == params.weekday &&
      rangesOverlap params.startTime params.endTime event.startTime event.endTime)
    if overlaps.isEmpty then Except.ok ⟨false, []⟩
    else
      let existingTypes := jsSetDedup (overlaps.map (fun e => e.classTypeCode))
      let compatibilityMap := loadCompatibilityMap db params.classTypeCode existingTypes
      let conflicts := overlaps.filterMap (fun overlap =>
        let check := resolveCompatibility compatibilityMap params.classTypeCode
          overlap.classTypeCode
        if check.1 then none else some (overlap.id, check.2))
      Except.ok ⟨!conflicts.isEmpty, conflicts⟩

structure MoveTarget where
  weekday : Int
  weekStart : Date
  startTime : Time
deriving DecidableEq, Repr

structure MoveUpdated where
  id : String
  weekday : Option Int
  class_date : Option Date
  start_time : Time
  end_time : Time
deriving DecidableEq, Repr

structure MoveResult where
  moved : Bool
  conflict : ConflictResult
  updated : Option MoveUpdated
deriving DecidableEq, Repr

/-- `moveScheduleSlot`. -/
def moveScheduleSlot (db : DB) (classId : String) (target : MoveTarget)
    (actorUserId : String) : Except String MoveResult × DB :=
  match db.classes.find? (fun r => r.id == classId) with
  | none => (Except.error "Class not found", db)
  | some classRow =>
    let sourceStart := classRow.start_time
    let sourceEnd := classRow.end_time
    let durationMinutes := (max 30 ((sourceEnd : Int) - (sourceStart : Int))).toNat
    let endTime := addMinutes target.startTime durationMinutes
    match checkMoveConflictForWeek db
        ⟨classId, classRow.instructor_id, classRow.class_type_code,
          target.weekStart, target.weekday, target.startTime, endTime⟩ with
    | Except.error e => (Except.error e, db)
    | Except.ok conflict =>
      if conflict.hasConflict then (Except.ok ⟨false, conflict, none⟩, db)
      else
        let db2 := { db with classes := db.classes.map (fun r : ClassRow =>
          if r.id == classId then
            if classRow.schedule_mode == ScheduleMode.recurring then
              { r with
                weekday := some target.weekday
                start_time := target.startTime
                end_time := endTime }
            else
              { r with
                class_date := some (addDays target.weekStart (target.weekday - 1))
                start_time := target.startTime
                end_time := endTime }
          else r) }
        let updated := (db2.classes.find? (fun r => r.id == classId)).map (fun r : ClassRow =>
          MoveUpdated.mk r.id r.weekday r.class_date r.start_time r.end_time)
        let logRow := StatusLogRow.mk classId ScheduleStatus.planned (some actorUserId)
          (some ("drag-move:" ++ toString target.weekday ++ ":" ++ toString target.startTime))
        (Except.ok ⟨true, conflict, updated⟩,
          { db2 with class_status_logs := db2.class_status_logs ++ [logRow] })

/-! ## Specification-side predicates

These definitions follow the wording of the specification (and of the claims
derived from it); the theorems below compare them with the embedded source
functions. -/

/-- A recurring definition's active window covers a date (spec wording). -/
def activeWindowCovers (row : ClassRow) (date : Date) : Prop :=
  row.active_from ≤ date ∧ ∀ t, row.active_to = some t → date ≤ t

/-- Spec wording of the overlap set of the conflict checker: an existing
definition of the same instructor whose time range overlaps the candidate's,
drawn from the mode-dependent comparison set, the candidate's own id
excluded. -/
def specOverlapRow (db : DB) (payload : CreateScheduleRequest) (today : Date)
    (excludeClassId : Option String) (row : ClassRow) : Prop :=
  row ∈ db.classes ∧
  row.instructor_id = payload.instructorId ∧
  (∀ ex, excludeClassId = some ex → row.id ≠ ex) ∧
  rangesOverlap payload.startTime payload.endTime row.start_time row.end_time = true ∧
  ((payload.scheduleMode = ScheduleMode.recurring ∧
      row.schedule_mode = ScheduleMode.recurring ∧
      row.weekday = payload.weekday ∧
      activeWindowCovers row (payload.activeFrom.getD today)) ∨
   (payload.scheduleMode = ScheduleMode.one_off ∧
      ((row.schedule_mode = ScheduleMode.one_off ∧
          row.class_date = some (payload.classDate.getD 0)) ∨
       (row.schedule_mode = ScheduleMode.recurring ∧
          row.weekday = some (dateToWeekday (payload.classDate.getD 0)) ∧
          activeWindowCovers row (payload.classDate.getD 0)))))

/-- First rule of the raw table for an ordered pair of class types. -/
def ruleFor (rules : List CompatRow) (a b : String) : Option CompatRow :=
  rules.find? (fun r => r.class_type_a == a && r.class_type_b == b)

/-- Spec wording of the compatibility policy's lookup order, resolved directly
over the raw rule table: exact direction, then reversed direction, then the
same-type default, then the incompatible default. -/
def specResolve (rules : List CompatRow) (candidateType existingType : String) : Bool × String :=
  match ruleFor rules candidateType existingType with
  | some direct => (direct.is_compatible, direct.reason.getD "Incompatible class type overlap")
  | none =>
    match ruleFor rules existingType candidateType with
    | some reverse => (reverse.is_compatible, reverse.reason.getD "Incompatible class type overlap")
    | none =>
      if candidateType = existingType then
        (true, "same class type")
      else
        (false, "No compatibility rule defined for " ++ candidateType ++ " vs " ++ existingType)

/-- Primary-key uniqueness of the compatibility table (schema:
`primary key (class_type_a, class_type_b)`). -/
def compatKeysNodup (db : DB) : Prop :=
  (db.class_type_compatibility.map (fun r => (r.class_type_a, r.class_type_b))).Nodup

/-- Key uniqueness of the overrides table (schema:
`unique (class_id, override_date)`). -/
def overrideKeysNodup (db : DB) : Prop :=
  (db.class_overrides.map (fun o => (o.class_id, o.override_date))).Nodup

/-- Schema check constraint `weekday between 1 and 7`. -/
def weekdaysValid (db : DB) : Prop :=
  ∀ row ∈ db.classes, ∀ w, row.weekday = some w → 1 ≤ w ∧ w ≤ 7

/-! ## Concrete stores and payloads used in the example theorems -/

/-- A recurring 1:1 class of instructor `i1`, Mondays 10:00-11:00. -/
def wClass1 : ClassRow :=
  ⟨"c1", ScheduleMode.recurring, "i1", "MATH", "ONE_TO_ONE", some 1, none, 600, 660, 0, none,
    ScheduleStatus.planned, "", none⟩

/-- A recurring multi-student class of instructor `i1`, Tuesdays 10:00-11:00. -/
def wClass2 : ClassRow :=
  ⟨"c2", ScheduleMode.recurring, "i1", "MATH", "REGULAR_MULTI", some 2, none, 600, 660, 0, none,
    ScheduleStatus.planned, "", none⟩

/-- A recurring 1:1 class of instructor `i1`, Wednesdays 10:00-11:00. -/
def wClass3 : ClassRow :=
  ⟨"c3", ScheduleMode.recurring, "i1", "MATH", "ONE_TO_ONE", some 3, none, 600, 660, 0, none,
    ScheduleStatus.planned, "", none⟩

/-- Base store: one instructor with classes `c1`-`c3`, a compatibility table
with unique keys (1:1 incompatible with itself and with the multi type, the
multi type compatible with itself), and the two class types. -/
def wDB : DB :=
  { classes := [wClass1, wClass2, wClass3]
    class_enrollments := [⟨"c1", "s1"⟩, ⟨"c2", "s1"⟩, ⟨"c3", "s1"⟩]
    class_overrides := []
    class_type_compatibility :=
      [⟨"ONE_TO_ONE", "ONE_TO_ONE", false, some "no double one-to-one"⟩,
       ⟨"ONE_TO_ONE", "REGULAR_MULTI", false, some "blocked"⟩,
       ⟨"REGULAR_MULTI", "REGULAR_MULTI", true, none⟩]
    class_types := [⟨"ONE_TO_ONE", "1:1", "[1:1]", 1⟩, ⟨"REGULAR_MULTI", "RM", "[RM]", 8⟩]
    class_status_logs := []
    instructors := [⟨"i1", "Alice"⟩, ⟨"i2", "Carol"⟩]
    students := [⟨"s1", "Bob"⟩, ⟨"s2", "Dan"⟩]
    subjects := [⟨"MATH", "Math", "bg-blue-500"⟩] }

/-- Candidate overlapping `c1` (Monday 10:30-11:30, 1:1). -/
def wPayload : CreateScheduleRequest :=
  { instructorId := "i1", studentIds := ["s2"], subjectCode := "MATH",
    classTypeCode := "ONE_TO_ONE", note := "n", scheduleMode := ScheduleMode.recurring,
    weekday := some 1, activeFrom := some 0, startTime := 630, endTime := 690 }

/-- Conflict-free candidate (Friday 10:00-11:00, multi type). -/
def wPayloadFree : CreateScheduleRequest :=
  { instructorId := "i1", studentIds := ["s2"], subjectCode := "MATH",
    classTypeCode := "REGULAR_MULTI", note := "n", scheduleMode := ScheduleMode.recurring,
    weekday := some 5, activeFrom := some 0, startTime := 600, endTime := 660 }

/-- Import row with the exact signature of `c2` (Tuesday 10:00-11:00, multi),
with an earlier `activeFrom` so the widening update fires. -/
def wImportC2 : CreateScheduleRequest :=
  { instructorId := "i1", studentIds := ["s1"], subjectCode := "MATH",
    classTypeCode := "REGULAR_MULTI", note := "n", scheduleMode := ScheduleMode.recurring,
    weekday := some 2, activeFrom := some (-5), startTime := 600, endTime := 660 }

/-- Import row with the exact signature of the full 1:1 class `c3`. -/
def wImportC3 : CreateScheduleRequest :=
  { instructorId := "i1", studentIds := ["s2"], subjectCode := "MATH",
    classTypeCode := "ONE_TO_ONE", note := "n", scheduleMode := ScheduleMode.recurring,
    weekday := some 3, activeFrom := some 0, startTime := 600, endTime := 660 }

/-- Store for the C3 counterexample: `c1var` belongs to instructor `iB`, and a
reschedule override hands its Monday occurrence (date 4) to instructor `iA`. -/
def cDB3 : DB :=
  { classes := [⟨"c1", ScheduleMode.recurring, "iB", "MATH", "ONE_TO_ONE", some 1, none, 600, 660,
      -10, none, ScheduleStatus.planned, "", none⟩]
    class_enrollments := []
    class_overrides := [⟨"c1", 4, OverrideAction.reschedule, some "iA", none, none, none⟩]
    class_type_compatibility := []
    class_types := [⟨"ONE_TO_ONE", "1:1", "[1:1]", 1⟩]
    class_status_logs := []
    instructors := [⟨"iA", "Ann"⟩, ⟨"iB", "Ben"⟩]
    students := []
    subjects := [⟨"MATH", "Math", "bg-blue-500"⟩] }

/-- Store for the C6 counterexample: a one-off class dated day 10, whose
`active_from` (day 20) lies after its class date. -/
def cDB6 : DB :=
  { classes := [⟨"c1", ScheduleMode.one_off, "i1", "MATH", "ONE_TO_ONE", none, some 10, 600, 660,
      20, none, ScheduleStatus.planned, "", none⟩]
    class_enrollments := []
    class_overrides := []
    class_type_compatibility := []
    class_types := [⟨"ONE_TO_ONE", "1:1", "[1:1]", 1⟩]
    class_status_logs := []
    instructors := [⟨"i1", "Alice"⟩]
    students := []
    subjects := [⟨"MATH", "Math", "bg-blue-500"⟩] }

/-- Store for the C7 witness: `wDB` plus a cancel override on `c1`'s Monday
occurrence of the week starting day 4. -/
def cDB7 : DB :=
  { wDB with class_overrides := [⟨"c1", 4, OverrideAction.cancel, none, none, none, none⟩] }

/-- Shape of the events the base store materializes for instructor `i1`. -/
def wEvent (id tc lbl badge : String) (wd : Int) (d : Date) : ScheduleEvent :=
  { id := id, scheduleMode := ScheduleMode.recurring, instructorId := "i1",
    instructorName := "Alice", studentIds := ["s1"], studentNames := ["Bob"],
    subjectCode := "MATH", subjectName := "Math", classTypeCode := tc, classTypeLabel := lbl,
    badgeText := badge, weekday := wd, classDate := d, startTime := 600, endTime := 660,
    progressStatus := ScheduleStatus.planned, createdAt := "" }

/-- The week starting day 4 as materialized from `wDB` for instructor `i1`. -/
def wResp : ScheduleWeekResponse :=
  ⟨4, 10, [wEvent "c1" "ONE_TO_ONE" "1:1" "[1:1]" 1 4,
    wEvent "c2" "REGULAR_MULTI" "RM" "[RM]" 2 5,
    wEvent "c3" "ONE_TO_ONE" "1:1" "[1:1]" 3 6]⟩

/-- The same week materialized from `cDB7` (the cancel override removes `c1`'s
Monday occurrence). -/
def cResp7 : ScheduleWeekResponse :=
  ⟨4, 10, [wEvent "c2" "REGULAR_MULTI" "RM" "[RM]" 2 5,
    wEvent "c3" "ONE_TO_ONE" "1:1" "[1:1]" 3 6]⟩

/-- The store with every override keyed `(cid, d)` removed. -/
def removeOverride (db : DB) (cid : String) (d : Date) : DB :=
  { db with class_overrides :=
      (db.class_overrides.filter (fun o => !(o.class_id == cid && o.override_date == d))) }

/-- Payload with two distinct students against the 1:1 type (capacity 1). -/
def cPayload4 : CreateScheduleRequest :=
  { wPayload with studentIds := ["s1", "s2"] }

/-! ## Generic lemmas about the last-set-wins lookups -/

theorem lookup_foldl {α β : Type} (p : α → Bool) (g : α → β) (l : List α) (a : Option β) :
    l.foldl (fun acc x => if p x then some (g x) else acc) a =
      match l.foldl (fun acc x => if p x then some (g x) else acc) none with
      | some v => some v
      | none => a := by
  induction l generalizing a with
  | nil => simp
  | cons x l ih =>
    simp only [List.foldl_cons]
    rw [ih, ih (if p x = true then some (g x) else none)]
    cases hpx : p x <;>
      cases hs : l.foldl (fun acc x => if p x then some (g x) else acc) none <;>
        simp [hpx, hs]

theorem lookup_cons {α β : Type} (p : α → Bool) (g : α → β) (x : α) (l : List α) :
    (x :: l).foldl (fun acc x => if p x then some (g x) else acc) none =
      match l.foldl (fun acc x => if p x then some (g x) else acc) none with
      | some v => some v
      | none => if p x then some (g x) else none := by
  simp only [List.foldl_cons]
  rw [lookup_foldl]

theorem lookup_append {α β : Type} (p : α → Bool) (g : α → β) (l₁ l₂ : List α) :
    (l₁ ++ l₂).foldl (fun acc x => if p x then some (g x) else acc) none =
      match l₂.foldl (fun acc x => if p x then some (g x) else acc) none with
      | some v => some v
      | none => l₁.foldl (fun acc x => if p x then some (g x) else acc) none := by
  rw [List.foldl_append, lookup_foldl]

theorem lookup_eq_none_iff {α β : Type} (p : α → Bool) (g : α → β) (l : List α) :
    l.foldl (fun acc x => if p x then some (g x) else acc) none = none ↔
      ∀ x ∈ l, p x = false := by
  induction l with
  | nil => simp
  | cons x l ih =>
    rw [lookup_cons]
    cases hs : l.foldl (fun acc x => if p x then some (g x) else acc) none with
    | some v =>
      simp only []
      constructor
      · intro h; exact absurd h (by simp)
      · intro h
        have : ∀ x ∈ l, p x = false := fun y hy => h y (List.mem_cons_of_mem _ hy)
        rw [ih.mpr this] at hs
        exact absurd hs (by simp)
    | none =>
      have hl := ih.mp hs
      cases hpx : p x with
      | false =>
        rw [if_neg (by simp : ¬ (false = true))]
        constructor
        · intro _ y hy
          rcases List.mem_cons.mp hy with rfl | hy'
          · exact hpx
          · exact hl y hy'
        · intro _; rfl
      | true =>
        rw [if_pos rfl]
        constructor
        · intro h; exact absurd h (by simp)
        · intro h
          exact absurd (h x (List.mem_cons_self _ _)) (by simp [hpx])

theorem lookup_some_mem {α β : Type} (p : α → Bool) (g : α → β) (l : List α) (v : β)
    (h : l.foldl (fun acc x => if p x then some (g x) else acc) none = some v) :
    ∃ x ∈ l, p x = true ∧ g x = v := by
  induction l with
  | nil => simp at h
  | cons x l ih =>
    rw [lookup_cons] at h
    cases hs : l.foldl (fun acc x => if p x then some (g x) else acc) none with
    | some w =>
      rw [hs] at h
      simp only [] at h
      obtain ⟨y, hy, hpy, hgy⟩ := ih (hs.trans h)
      exact ⟨y, List.mem_cons_of_mem _ hy, hpy, hgy⟩
    | none =>
      rw [hs] at h
      simp only [] at h
      cases hpx : p x with
      | true =>
        rw [hpx] at h
        simp at h
        exact ⟨x, List.mem_cons_self _ _, hpx, h⟩
      | false =>
        rw [hpx] at h
        simp at h

theorem lookup_eq_some_of_unique {α β : Type} (p : α → Bool) (g : α → β) (l : List α) (x₀ : α)
    (hmem : x₀ ∈ l) (hp : p x₀ = true) (huniq : ∀ x ∈ l, p x = true → x = x₀) :
    l.foldl (fun acc x => if p x then some (g x) else acc) none = some (g x₀) := by
  induction l with
  | nil => simp at hmem
  | cons x l ih =>
    rw [lookup_cons]
    cases hs : l.foldl (fun acc x => if p x then some (g x) else acc) none with
    | some w =>
      obtain ⟨y, hy, hpy, hgy⟩ := lookup_some_mem p g l w hs
      have : y = x₀ := huniq y (List.mem_cons_of_mem _ hy) hpy
      subst this
      simp [hgy]
    | none =>
      have hnone := (lookup_eq_none_iff p g l).mp hs
      rcases List.mem_cons.mp hmem with rfl | hmem'
      · simp [hp]
      · exact absurd hp (by simp [hnone x₀ hmem'])

theorem lookup_eq_find?_of_unique {α β : Type} (p : α → Bool) (g : α → β) (l : List α)
    (huniq : ∀ x ∈ l, ∀ y ∈ l, p x = true → p y = true → x = y) :
    l.foldl (fun acc x => if p x then some (g x) else acc) none = (l.find? p).map g := by
  cases hf : l.find? p with
  | none =>
    rw [List.find?_eq_none] at hf
    simp only [Option.map_none']
    exact (lookup_eq_none_iff p g l).mpr (fun x hx => by
      have := hf x hx
      cases hpx : p x
      · rfl
      · exact absurd hpx this)
  | some x₀ =>
    have hmem := List.mem_of_find?_eq_some hf
    have hp := List.find?_some hf
    simp only [Option.map_some']
    exact lookup_eq_some_of_unique p g l x₀ hmem hp
      (fun x hx hpx => huniq x hx x₀ hmem hpx hp)

/-! ## List helper lemmas -/

theorem take_one_head? {α : Type} (l : List α) : (l.take 1).head? = l.head? := by
  cases l <;> rfl

theorem jsSetDedup_cons (x : String) (xs : List String) :
    jsSetDedup (x :: xs) = x :: (jsSetDedup xs).filter (fun y => y != x) := rfl

theorem mem_jsSetDedup {a : String} : ∀ {l : List String}, a ∈ jsSetDedup l ↔ a ∈ l := by
  intro l
  induction l with
  | nil => simp [jsSetDedup]
  | cons x xs ih =>
    rw [jsSetDedup_cons]
    simp only [List.mem_cons, List.mem_filter, ih]
    constructor
    · rintro (rfl | ⟨h, _⟩)
      · exact Or.inl rfl
      · exact Or.inr h
    · rintro (rfl | h)
      · exact Or.inl rfl
      · by_cases hx : a = x
        · exact Or.inl hx
        · exact Or.inr ⟨h, by simp [hx]⟩

theorem find?_filter_of_imp {α : Type} {p q : α → Bool} (l : List α)
    (h : ∀ x, q x = true → p x = true) : (l.filter p).find? q = l.find? q := by
  induction l with
  | nil => rfl
  | cons x l ih =>
    by_cases hpx : p x = true
    · rw [List.filter_cons_of_pos hpx]
      cases hqx : q x
      · rw [List.find?_cons_of_neg _ (by simp [hqx]), List.find?_cons_of_neg _ (by simp [hqx]), ih]
      · rw [List.find?_cons_of_pos _ hqx, List.find?_cons_of_pos _ hqx]
    · rw [List.filter_cons_of_neg (by simpa using hpx)]
      have hqx : ¬ q x = true := fun hq => hpx (h x hq)
      rw [List.find?_cons_of_neg _ (by simpa using hqx), ih]

theorem mem_insertSorted {a e : ScheduleEvent} : ∀ {l : List ScheduleEvent},
    a ∈ insertSorted e l ↔ a = e ∨ a ∈ l := by
  intro l
  induction l with
  | nil => simp [insertSorted]
  | cons x l ih =>
    rw [insertSorted]
    by_cases h : eventLe e x = true
    · simp [h, List.mem_cons]
    · simp only [if_neg h, List.mem_cons, ih]
      tauto

theorem perm_insertSorted (e : ScheduleEvent) : ∀ (l : List ScheduleEvent),
    (insertSorted e l).Perm (e :: l) := by
  intro l
  induction l with
  | nil => simp [insertSorted]
  | cons x l ih =>
    rw [insertSorted]
    by_cases h : eventLe e x = true
    · simp [h]
    · rw [if_neg h]
      exact (List.Perm.cons x ih).trans (List.Perm.swap e x l)

theorem perm_sortEvents (l : List ScheduleEvent) : (sortEvents l).Perm l := by
  induction l with
  | nil => simp [sortEvents]
  | cons x l ih =>
    have : sortEvents (x :: l) = insertSorted x (sortEvents l) := rfl
    rw [this]
    exact (perm_insertSorted x (sortEvents l)).trans (List.Perm.cons x ih)

theorem mem_sortEvents {a : ScheduleEvent} {l : List ScheduleEvent} :
    a ∈ sortEvents l ↔ a ∈ l :=
  (perm_sortEvents l).mem_iff

theorem nodup_map_filterMap {α β γ : Type} {f : α → Option β} {g : β → γ} {h : α → γ}
    (hcomp : ∀ a b, f a = some b → g b = h a) :
    ∀ {l : List α}, (l.map h).Nodup → ((l.filterMap f).map g).Nodup := by
  intro l
  induction l with
  | nil => simp
  | cons a l ih =>
    intro hnd
    rw [List.map_cons, List.nodup_cons] at hnd
    cases hfa : f a with
    | none => rw [List.filterMap_cons_none hfa]; exact ih hnd.2
    | some b =>
      rw [List.filterMap_cons_some hfa, List.map_cons, List.nodup_cons]
      refine ⟨?_, ih hnd.2⟩
      intro hmem
      obtain ⟨b', hb', hgb'⟩ := List.mem_map.mp hmem
      obtain ⟨a', ha', hfa'⟩ := List.mem_filterMap.mp hb'
      have : h a' = h a := by rw [← hcomp a' b' hfa', hgb', hcomp a b hfa]
      exact hnd.1 (this ▸ List.mem_map_of_mem h ha')

/-! ## The loaded compatibility map agrees with direct table resolution -/

/-- Pair-key comparison against a fixed key, unfolded to components. -/
theorem compat_key_beq (r : CompatRow) (a b : String) :
    (((r.class_type_a, r.class_type_b) : String × String) == (a, b)) =
      (r.class_type_a == a && r.class_type_b == b) := by
  rw [Bool.eq_iff_iff]
  simp [beq_iff_eq, Prod.ext_iff, Bool.and_eq_true]

theorem find?_key_eq_ruleFor (table : List CompatRow) (a b : String) :
    table.find? (fun r => ((r.class_type_a, r.class_type_b) : String × String) == (a, b)) =
      ruleFor table a b := by
  unfold ruleFor
  have : (fun r : CompatRow => ((r.class_type_a, r.class_type_b) : String × String) == (a, b)) =
      (fun r : CompatRow => r.class_type_a == a && r.class_type_b == b) := by
    funext r
    exact compat_key_beq r a b
  rw [this]


/-- `mapGet` on one (filtered, mapped) half of the loaded map, when the filter
predicate is implied by the key equation: it reduces to a raw-table `find?`. -/
theorem mapGet_filter_map_key (table : List CompatRow) (p : CompatRow → Bool)
    (hnd : (table.map (fun r => ((r.class_type_a, r.class_type_b) : String × String))).Nodup)
    (k : String × String)
    (himp : ∀ r, (((r.class_type_a, r.class_type_b) : String × String) == k) = true →
      p r = true) :
    mapGet ((table.filter p).map (fun r =>
        (((r.class_type_a, r.class_type_b) : String × String), (r.is_compatible, r.reason)))) k =
      (table.find? (fun r =>
        ((r.class_type_a, r.class_type_b) : String × String) == k)).map
          (fun r => ((r.is_compatible, r.reason) : CompatVal)) := by
  set f : CompatRow → (String × String) × CompatVal := fun r =>
    (((r.class_type_a, r.class_type_b) : String × String), (r.is_compatible, r.reason)) with hf
  have huniq : ∀ e ∈ (table.filter p).map f, ∀ e2 ∈ (table.filter p).map f,
      ((fun e : (String × String) × CompatVal => e.1 == k) e) = true →
      ((fun e : (String × String) × CompatVal => e.1 == k) e2) = true → e = e2 := by
    intro e he e2 he2 hpe hpe2
    obtain ⟨r, hr, rfl⟩ := List.mem_map.mp he
    obtain ⟨r2, hr2, rfl⟩ := List.mem_map.mp he2
    have hr' := List.mem_of_mem_filter hr
    have hr2' := List.mem_of_mem_filter hr2
    have hk : ((r.class_type_a, r.class_type_b) : String × String) = k := by
      simpa [hf, beq_iff_eq] using hpe
    have hk2 : ((r2.class_type_a, r2.class_type_b) : String × String) = k := by
      simpa [hf, beq_iff_eq] using hpe2
    have : r = r2 := List.inj_on_of_nodup_map hnd hr' hr2' (hk.trans hk2.symm)
    rw [this]
  have h1 : mapGet ((table.filter p).map f) k =
      (((table.filter p).map f).find?
        (fun e : (String × String) × CompatVal => e.1 == k)).map
          (fun e : (String × String) × CompatVal => e.2) :=
    lookup_eq_find?_of_unique (fun e : (String × String) × CompatVal => e.1 == k)
      (fun e : (String × String) × CompatVal => e.2) _ huniq
  rw [h1, List.find?_map]
  have h2 : ((fun e : (String × String) × CompatVal => e.1 == k) ∘ f) =
      (fun r : CompatRow => ((r.class_type_a, r.class_type_b) : String × String) == k) := by
    funext r
    rfl
  rw [h2, find?_filter_of_imp _ himp, Option.map_map]
  rfl

/-- `mapGet` on a mapped filtered half is `none` when the key cannot satisfy
the filter's fixed component. -/
theorem mapGet_filter_map_none (table : List CompatRow) (p : CompatRow → Bool)
    (k : String × String)
    (hmiss : ∀ r, p r = true → ¬ ((r.class_type_a, r.class_type_b) : String × String) = k) :
    mapGet ((table.filter p).map (fun r =>
        (((r.class_type_a, r.class_type_b) : String × String), (r.is_compatible, r.reason)))) k =
      none := by
  unfold mapGet
  refine (lookup_eq_none_iff (fun e : (String × String) × CompatVal => e.1 == k)
    (fun e : (String × String) × CompatVal => e.2) _).mpr ?_
  intro e he
  obtain ⟨r, hr, rfl⟩ := List.mem_map.mp he
  have hp := List.of_mem_filter hr
  cases hbeq : (((r.class_type_a, r.class_type_b) : String × String) == k) with
  | false => rfl
  | true => exact absurd (by simpa [beq_iff_eq] using hbeq) (hmiss r hp)

theorem lookup_eq_lastHit_aux {α β : Type} (p : α → Bool) (g : α → β) (l : List α) :
    l.foldl (fun acc x => if p x then some (g x) else acc) none = lastHit p g l := by
  induction l with
  | nil => rfl
  | cons x l ih =>
    rw [lookup_cons, ih]
    cases h : lastHit p g l <;> simp [lastHit, h]

theorem mapGet_eq_lastHit (m : List ((String × String) × CompatVal)) (k : String × String) :
    mapGet m k = lastHit (fun e : (String × String) × CompatVal => e.1 == k)
      (fun e : (String × String) × CompatVal => e.2) m := by
  unfold mapGet
  exact lookup_eq_lastHit_aux _ _ m

theorem lastHit_append {α β : Type} (p : α → Bool) (g : α → β) (l₁ l₂ : List α) :
    lastHit p g (l₁ ++ l₂) =
      match lastHit p g l₂ with
      | some v => some v
      | none => lastHit p g l₁ := by
  induction l₁ with
  | nil =>
    rw [List.nil_append]
    cases h : lastHit p g l₂ <;> simp [lastHit, h]
  | cons x l₁ ih =>
    rw [List.cons_append]
    rw [show lastHit p g (x :: (l₁ ++ l₂)) =
      match lastHit p g (l₁ ++ l₂) with
      | some v => some v
      | none => if p x then some (g x) else none from rfl]
    rw [ih]
    rw [show lastHit p g (x :: l₁) =
      match lastHit p g l₁ with
      | some v => some v
      | none => if p x then some (g x) else none from rfl]
    cases h2 : lastHit p g l₂ <;> cases h1 : lastHit p g l₁ <;> rfl

theorem mapGet_append (l₁ l₂ : List ((String × String) × CompatVal)) (k : String × String) :
    mapGet (l₁ ++ l₂) k =
      match mapGet l₂ k with
      | some v => some v
      | none => mapGet l₁ k := by
  rw [mapGet_eq_lastHit, mapGet_eq_lastHit, mapGet_eq_lastHit, lastHit_append]
  cases lastHit (fun e : (String × String) × CompatVal => e.1 == k)
    (fun e : (String × String) × CompatVal => e.2) l₂ <;> rfl

/-- The embedded lookup pipeline (`loadCompatibilityMap` then
`resolveCompatibility`) resolves exactly like the documented order over the raw
rule table, for any existing type that was part of the requested scope. -/
theorem resolve_loaded_eq (db : DB) (cand : String) (ts : List String) (t : String)
    (hnd : compatKeysNodup db) (ht : t ∈ ts) :
    resolveCompatibility (loadCompatibilityMap db cand ts) cand t =
      specResolve db.class_type_compatibility cand t := by
  have hts : ts ≠ [] := List.ne_nil_of_mem ht
  set table := db.class_type_compatibility with htable
  set pdir : CompatRow → Bool := fun row =>
    row.class_type_a == cand && ts.contains row.class_type_b with hpdir
  set prev : CompatRow → Bool := fun row =>
    row.class_type_b == cand && ts.contains row.class_type_a with hprev
  set f : CompatRow → (String × String) × CompatVal := fun r =>
    (((r.class_type_a, r.class_type_b) : String × String), (r.is_compatible, r.reason)) with hf
  have hload : loadCompatibilityMap db cand ts =
      (table.filter pdir).map f ++ (table.filter prev).map f := by
    rw [loadCompatibilityMap, if_neg hts, List.map_append]
  have hcontains : ∀ s : String, s ∈ ts → ts.contains s = true := by
    intro s hs
    exact List.elem_iff.mpr hs
  have hsplit : ∀ r : CompatRow, ∀ x y : String,
      (((r.class_type_a, r.class_type_b) : String × String) == (x, y)) = true →
      r.class_type_a = x ∧ r.class_type_b = y := by
    intro r x y hr
    simpa [beq_iff_eq, Prod.ext_iff] using hr
  -- first lookup: key (cand, t)
  have hdir1 : mapGet ((table.filter pdir).map f) (cand, t) =
      (ruleFor table cand t).map (fun r => ((r.is_compatible, r.reason) : CompatVal)) := by
    rw [mapGet_filter_map_key table pdir hnd (cand, t) ?_, find?_key_eq_ruleFor]
    intro r hr
    obtain ⟨ha, hb⟩ := hsplit r cand t hr
    rw [hpdir]
    simp only [Bool.and_eq_true]
    exact ⟨by simp [ha], by rw [hb]; exact hcontains t ht⟩
  have hrev1 : mapGet ((table.filter prev).map f) (cand, t) =
      (if t = cand then
        (ruleFor table cand t).map (fun r => ((r.is_compatible, r.reason) : CompatVal))
      else none) := by
    by_cases hteq : t = cand
    · rw [if_pos hteq]
      rw [mapGet_filter_map_key table prev hnd (cand, t) ?_, find?_key_eq_ruleFor]
      intro r hr
      obtain ⟨ha, hb⟩ := hsplit r cand t hr
      rw [hprev]
      simp only [Bool.and_eq_true]
      exact ⟨by simp [hb, hteq], by rw [ha]; exact hcontains cand (hteq ▸ ht)⟩
    · rw [if_neg hteq]
      apply mapGet_filter_map_none
      intro r hp hk
      have hb : r.class_type_b = cand := by
        rw [hprev] at hp
        simp only [Bool.and_eq_true] at hp
        simpa [beq_iff_eq] using hp.1
      have hbt : r.class_type_b = t := (Prod.ext_iff.mp hk).2
      exact hteq (hbt ▸ hb)
  have hget1 : mapGet (loadCompatibilityMap db cand ts) (cand, t) =
      (ruleFor table cand t).map (fun r => ((r.is_compatible, r.reason) : CompatVal)) := by
    rw [hload, mapGet_append, hrev1, hdir1]
    by_cases hteq : t = cand
    · rw [if_pos hteq]
      cases ruleFor table cand t <;> rfl
    · rw [if_neg hteq]
  -- second lookup: key (t, cand)
  have hrev2 : mapGet ((table.filter prev).map f) (t, cand) =
      (ruleFor table t cand).map (fun r => ((r.is_compatible, r.reason) : CompatVal)) := by
    rw [mapGet_filter_map_key table prev hnd (t, cand) ?_, find?_key_eq_ruleFor]
    intro r hr
    obtain ⟨ha, hb⟩ := hsplit r t cand hr
    rw [hprev]
    simp only [Bool.and_eq_true]
    exact ⟨by simp [hb], by rw [ha]; exact hcontains t ht⟩
  have hdir2 : mapGet ((table.filter pdir).map f) (t, cand) =
      (if t = cand then
        (ruleFor table t cand).map (fun r => ((r.is_compatible, r.reason) : CompatVal))
      else none) := by
    by_cases hteq : t = cand
    · rw [if_pos hteq]
      rw [mapGet_filter_map_key table pdir hnd (t, cand) ?_, find?_key_eq_ruleFor]
      intro r hr
      obtain ⟨ha, hb⟩ := hsplit r t cand hr
      rw [hpdir]
      simp only [Bool.and_eq_true]
      exact ⟨by simp [ha, hteq], by rw [hb]; exact hcontains cand (hteq ▸ ht)⟩
    · rw [if_neg hteq]
      apply mapGet_filter_map_none
      intro r hp hk
      have ha : r.class_type_a = cand := by
        rw [hpdir] at hp
        simp only [Bool.and_eq_true] at hp
        simpa [beq_iff_eq] using hp.1
      have hat : r.class_type_a = t := (Prod.ext_iff.mp hk).1
      exact hteq (hat ▸ ha)
  have hget2 : mapGet (loadCompatibilityMap db cand ts) (t, cand) =
      (ruleFor table t cand).map (fun r => ((r.is_compatible, r.reason) : CompatVal)) := by
    rw [hload, mapGet_append, hrev2, hdir2]
    by_cases hteq : t = cand
    · rw [if_pos hteq]
      cases ruleFor table t cand <;> rfl
    · rw [if_neg hteq]
      cases ruleFor table t cand <;> rfl
  -- assemble
  rw [resolveCompatibility, hget1, hget2, specResolve]
  cases ruleFor table cand t <;> cases ruleFor table t cand <;> rfl

/-- C2: compatibility resolution follows the documented order — exact-direction
rule first, then the reversed rule, then the same-type compatible default, then
the incompatible default naming the missing rule; in particular a rule stored
only in one direction decides the reversed query (asymmetric tables are
honored). -/
theorem resolveCompatibility_lookup_order (db : DB) (cand : String) (ts : List String)
    (t : String) (hnd : compatKeysNodup db) (ht : t ∈ ts) :
    (∀ rule, ruleFor db.class_type_compatibility cand t = some rule →
      resolveCompatibility (loadCompatibilityMap db cand ts) cand t =
        (rule.is_compatible, rule.reason.getD "Incompatible class type overlap")) ∧
    (ruleFor db.class_type_compatibility cand t = none →
      ∀ rule, ruleFor db.class_type_compatibility t cand = some rule →
      resolveCompatibility (loadCompatibilityMap db cand ts) cand t =
        (rule.is_compatible, rule.reason.getD "Incompatible class type overlap")) ∧
    (ruleFor db.class_type_compatibility cand t = none →
      ruleFor db.class_type_compatibility t cand = none → cand = t →
      resolveCompatibility (loadCompatibilityMap db cand ts) cand t =
        (true, "same class type")) ∧
    (ruleFor db.class_type_compatibility cand t = none →
      ruleFor db.class_type_compatibility t cand = none → ¬ cand = t →
      resolveCompatibility (loadCompatibilityMap db cand ts) cand t =
        (false, "No compatibility rule defined for " ++ cand ++ " vs " ++ t)) := by
  rw [resolve_loaded_eq db cand ts t hnd ht]
  refine ⟨?_, ?_, ?_, ?_⟩
  · intro rule hrule
    rw [specResolve, hrule]
  · intro hdir rule hrule
    rw [specResolve, hdir, hrule]
  · intro hdir hrev heq
    rw [specResolve, hdir, hrev, if_pos heq]
  · intro hdir hrev hne
    rw [specResolve, hdir, hrev, if_neg hne]

/-- Witness for C2 at a concrete store: the table holds only the rule
`(ONE_TO_ONE, REGULAR_MULTI)`, and resolving the reversed pair
`(REGULAR_MULTI, ONE_TO_ONE)` still reports that rule's verdict. -/
theorem resolveCompatibility_lookup_order_witness :
    compatKeysNodup wDB ∧ ("ONE_TO_ONE" ∈ (["ONE_TO_ONE"] : List String)) ∧
    (ruleFor wDB.class_type_compatibility "REGULAR_MULTI" "ONE_TO_ONE" = none) ∧
    (ruleFor wDB.class_type_compatibility "ONE_TO_ONE" "REGULAR_MULTI" =
      some ⟨"ONE_TO_ONE", "REGULAR_MULTI", false, some "blocked"⟩) ∧
    resolveCompatibility (loadCompatibilityMap wDB "REGULAR_MULTI" ["ONE_TO_ONE"])
      "REGULAR_MULTI" "ONE_TO_ONE" = (false, "blocked") :=
  ⟨by unfold compatKeysNodup; decide, by decide, by decide, by decide,
    (resolveCompatibility_lookup_order wDB "REGULAR_MULTI" ["ONE_TO_ONE"] "ONE_TO_ONE"
      (by unfold compatKeysNodup; decide) (by decide)).2.1 (by decide)
      ⟨"ONE_TO_ONE", "REGULAR_MULTI", false, some "blocked"⟩ (by decide)⟩

/-! ## The overlap set of the conflict checker -/

theorem activeToCovers_iff (ato : Option Date) (d : Date) :
    activeToCovers ato d = true ↔ ∀ t, ato = some t → d ≤ t := by
  cases ato with
  | none => simp [activeToCovers]
  | some t => simp [activeToCovers, ge_iff_le]

theorem excludeFilter_iff (ex : Option String) (row : ClassRow) :
    ((match ex with
      | some e => row.id != e
      | none => true) = true) ↔ ∀ e, ex = some e → row.id ≠ e := by
  cases ex with
  | none => simp
  | some e => simp [bne_iff_ne]

/-- The pairs returned by `findExistingOverlaps` are exactly the projections of
the rows of the spec-level overlap set. -/
theorem mem_findExistingOverlaps (db : DB) (payload : CreateScheduleRequest) (today : Date)
    (ex : Option String) (cid tc : String) :
    (cid, tc) ∈ findExistingOverlaps db payload today ex ↔
      ∃ row, specOverlapRow db payload today ex row ∧
        row.id = cid ∧ row.class_type_code = tc := by
  cases hm : payload.scheduleMode with
  | recurring =>
    simp only [findExistingOverlaps, hm]
    constructor
    · intro h
      obtain ⟨row, hrow, heq⟩ := List.mem_map.mp h
      have h3 := List.mem_filter.mp hrow
      have h2 := List.mem_filter.mp h3.1
      have h1 := List.mem_filter.mp h2.1
      have hq := List.mem_filter.mp h1.1
      have hqb := hq.2
      rw [Bool.and_eq_true, Bool.and_eq_true] at hqb
      have hwin := h2.2
      rw [Bool.and_eq_true] at hwin
      have hpair : row.id = cid ∧ row.class_type_code = tc := by
        constructor
        · exact congrArg Prod.fst heq
        · exact congrArg Prod.snd heq
      refine ⟨row, ⟨hq.1, eq_of_beq hqb.1.1, (excludeFilter_iff ex row).mp h1.2, h3.2,
        Or.inl ⟨hm, eq_of_beq hqb.1.2, eq_of_beq hqb.2,
          of_decide_eq_true hwin.1, (activeToCovers_iff _ _).mp hwin.2⟩⟩, hpair⟩
    · rintro ⟨row, hspec, hid, htc⟩
      obtain ⟨hmem, hinst, hex, hov, hcase⟩ := hspec
      rcases hcase with ⟨-, hmode, hwd, hfrom, hto⟩ | ⟨hmode1, -⟩
      · refine List.mem_map.mpr ⟨row, ?_, by rw [hid, htc]⟩
        refine List.mem_filter.mpr ⟨List.mem_filter.mpr ⟨List.mem_filter.mpr
          ⟨List.mem_filter.mpr ⟨hmem, ?_⟩, ?_⟩, ?_⟩, hov⟩
        · rw [Bool.and_eq_true, Bool.and_eq_true]
          exact ⟨⟨beq_iff_eq.mpr hinst, beq_iff_eq.mpr hmode⟩, beq_iff_eq.mpr hwd⟩
        · exact (excludeFilter_iff ex row).mpr hex
        · rw [Bool.and_eq_true]
          exact ⟨decide_eq_true hfrom, (activeToCovers_iff _ _).mpr hto⟩
      · rw [hm] at hmode1
        exact absurd hmode1 (by simp)
  | one_off =>
    simp only [findExistingOverlaps, hm]
    constructor
    · intro h
      obtain ⟨row, hrow, heq⟩ := List.mem_map.mp h
      have h2 := List.mem_filter.mp hrow
      have h1 := List.mem_filter.mp h2.1
      have hpair : row.id = cid ∧ row.class_type_code = tc := by
        constructor
        · exact congrArg Prod.fst heq
        · exact congrArg Prod.snd heq
      rcases List.mem_append.mp h1.1 with hone | hrec
      · have hq := List.mem_filter.mp hone
        have hqb := hq.2
        rw [Bool.and_eq_true, Bool.and_eq_true] at hqb
        exact ⟨row, ⟨hq.1, eq_of_beq hqb.1.1, (excludeFilter_iff ex row).mp h1.2, h2.2,
          Or.inr ⟨hm, Or.inl ⟨eq_of_beq hqb.1.2, eq_of_beq hqb.2⟩⟩⟩, hpair⟩
      · have hq := List.mem_filter.mp hrec
        have hqb := hq.2
        rw [Bool.and_eq_true, Bool.and_eq_true, Bool.and_eq_true, Bool.and_eq_true] at hqb
        exact ⟨row, ⟨hq.1, eq_of_beq hqb.1.1.1.1, (excludeFilter_iff ex row).mp h1.2, h2.2,
          Or.inr ⟨hm, Or.inr ⟨eq_of_beq hqb.1.1.1.2, eq_of_beq hqb.1.1.2,
            of_decide_eq_true hqb.1.2, (activeToCovers_iff _ _).mp hqb.2⟩⟩⟩, hpair⟩
    · rintro ⟨row, hspec, hid, htc⟩
      obtain ⟨hmem, hinst, hex, hov, hcase⟩ := hspec
      rcases hcase with ⟨hmode1, -⟩ | ⟨-, ⟨hmode, hdate⟩ | ⟨hmode, hwd, hfrom, hto⟩⟩
      · rw [hm] at hmode1
        exact absurd hmode1 (by simp)
      · refine List.mem_map.mpr ⟨row, ?_, by rw [hid, htc]⟩
        refine List.mem_filter.mpr ⟨List.mem_filter.mpr ⟨List.mem_append.mpr (Or.inl ?_), ?_⟩,
          hov⟩
        · refine List.mem_filter.mpr ⟨hmem, ?_⟩
          rw [Bool.and_eq_true, Bool.and_eq_true]
          exact ⟨⟨beq_iff_eq.mpr hinst, beq_iff_eq.mpr hmode⟩, beq_iff_eq.mpr hdate⟩
        · exact (excludeFilter_iff ex row).mpr hex
      · refine List.mem_map.mpr ⟨row, ?_, by rw [hid, htc]⟩
        refine List.mem_filter.mpr ⟨List.mem_filter.mpr ⟨List.mem_append.mpr (Or.inr ?_), ?_⟩,
          hov⟩
        · refine List.mem_filter.mpr ⟨hmem, ?_⟩
          rw [Bool.and_eq_true, Bool.and_eq_true, Bool.and_eq_true, Bool.and_eq_true]
          exact ⟨⟨⟨⟨beq_iff_eq.mpr hinst, beq_iff_eq.mpr hmode⟩, beq_iff_eq.mpr hwd⟩,
            decide_eq_true hfrom⟩, (activeToCovers_iff _ _).mpr hto⟩
        · exact (excludeFilter_iff ex row).mpr hex

/-- After successful validation, `checkScheduleConflict` returns the conflict
list with its non-emptiness as the `hasConflict` flag. -/
theorem checkScheduleConflict_run (db : DB) (payload : CreateScheduleRequest) (today : Date)
    (ex : Option String) (hv : validateSchedulePayload payload = []) :
    checkScheduleConflict db payload today ex =
      Except.ok ⟨!(conflictsList db payload today ex).isEmpty,
        conflictsList db payload today ex⟩ := by
  unfold checkScheduleConflict conflictsList
  rw [hv]
  by_cases h : findExistingOverlaps db payload today ex = []
  · simp [h]
  · simp [h]

/-- Membership in the computed conflict list, characterized against the
spec-side overlap set and the spec-side resolution over the raw table. -/
theorem mem_conflictsList (db : DB) (payload : CreateScheduleRequest) (today : Date)
    (ex : Option String) (hnd : compatKeysNodup db) (cid reason : String) :
    (cid, reason) ∈ conflictsList db payload today ex ↔
      ∃ row, specOverlapRow db payload today ex row ∧ row.id = cid ∧
        specResolve db.class_type_compatibility payload.classTypeCode
          row.class_type_code = (false, reason) := by
  unfold conflictsList
  rw [List.mem_filterMap]
  constructor
  · rintro ⟨ov, hov, hF⟩
    have hts : ov.2 ∈ jsSetDedup ((findExistingOverlaps db payload today ex).map
        (fun r => r.2)) :=
      mem_jsSetDedup.mpr (List.mem_map_of_mem (fun r => r.2) hov)
    dsimp only at hF
    rw [resolve_loaded_eq db payload.classTypeCode _ ov.2 hnd hts] at hF
    by_cases hc : (specResolve db.class_type_compatibility payload.classTypeCode ov.2).1 = true
    · rw [if_pos hc] at hF
      exact absurd hF (by simp)
    · rw [if_neg hc] at hF
      have hres1 : (specResolve db.class_type_compatibility payload.classTypeCode ov.2).1 =
          false := by
        cases hx : (specResolve db.class_type_compatibility payload.classTypeCode ov.2).1
        · rfl
        · exact absurd hx hc
      have hid : ov.1 = cid := congrArg Prod.fst (Option.some.inj hF)
      have hreason : (specResolve db.class_type_compatibility payload.classTypeCode ov.2).2 =
          reason := congrArg Prod.snd (Option.some.inj hF)
      obtain ⟨row, hspec, hrid, hrtc⟩ :=
        (mem_findExistingOverlaps db payload today ex ov.1 ov.2).mp (by
          rw [show (ov.1, ov.2) = ov from rfl]
          exact hov)
      refine ⟨row, hspec, hrid.trans hid, ?_⟩
      rw [hrtc]
      exact Prod.ext hres1 hreason
  · rintro ⟨row, hspec, hid, hres⟩
    have hov : (row.id, row.class_type_code) ∈ findExistingOverlaps db payload today ex :=
      (mem_findExistingOverlaps db payload today ex row.id row.class_type_code).mpr
        ⟨row, hspec, rfl, rfl⟩
    refine ⟨(row.id, row.class_type_code), hov, ?_⟩
    have hts : row.class_type_code ∈ jsSetDedup ((findExistingOverlaps db payload today ex).map
        (fun r => r.2)) :=
      mem_jsSetDedup.mpr (List.mem_map.mpr ⟨(row.id, row.class_type_code), hov, rfl⟩)
    dsimp only
    rw [resolve_loaded_eq db payload.classTypeCode _ row.class_type_code hnd hts, hres]
    simp [hid]

/-- C1: for a valid payload, `checkScheduleConflict` succeeds, `hasConflict` is
true exactly when some same-instructor, mode-appropriate, time-overlapping
stored definition resolves as incompatible against the candidate's type, the
conflict list holds exactly those incompatible pairings, and the excluded class
id never enters the overlap set. -/
theorem checkScheduleConflict_spec (db : DB) (payload : CreateScheduleRequest) (today : Date)
    (ex : Option String) (hnd : compatKeysNodup db)
    (hv : validateSchedulePayload payload = []) :
    ∃ res, checkScheduleConflict db payload today ex = Except.ok res ∧
      (res.hasConflict = true ↔ ∃ row, specOverlapRow db payload today ex row ∧
        (specResolve db.class_type_compatibility payload.classTypeCode
          row.class_type_code).1 = false) ∧
      (∀ cid reason, (cid, reason) ∈ res.conflicts ↔
        ∃ row, specOverlapRow db payload today ex row ∧ row.id = cid ∧
          specResolve db.class_type_compatibility payload.classTypeCode
            row.class_type_code = (false, reason)) ∧
      (∀ exv, ex = some exv → ∀ tc, (exv, tc) ∉ findExistingOverlaps db payload today ex) := by
  refine ⟨⟨!(conflictsList db payload today ex).isEmpty, conflictsList db payload today ex⟩,
    checkScheduleConflict_run db payload today ex hv, ?_, ?_, ?_⟩
  · constructor
    · intro h
      have hne : conflictsList db payload today ex ≠ [] := by
        intro hnil
        rw [hnil] at h
        simp at h
      obtain ⟨p, hp⟩ := List.exists_mem_of_ne_nil _ hne
      obtain ⟨row, hspec, -, hres⟩ :=
        (mem_conflictsList db payload today ex hnd p.1 p.2).mp (by
          rw [show (p.1, p.2) = p from rfl]
          exact hp)
      exact ⟨row, hspec, by rw [hres]⟩
    · rintro ⟨row, hspec, hres1⟩
      have hmem : (row.id, (specResolve db.class_type_compatibility payload.classTypeCode
          row.class_type_code).2) ∈ conflictsList db payload today ex :=
        (mem_conflictsList db payload today ex hnd _ _).mpr
          ⟨row, hspec, rfl, Prod.ext hres1 rfl⟩
      have hne : conflictsList db payload today ex ≠ [] := by
        intro hnil
        rw [hnil] at hmem
        simp at hmem
      simp [List.isEmpty_iff, hne]
  · exact fun cid reason => mem_conflictsList db payload today ex hnd cid reason
  · intro exv hexv tc hmem
    obtain ⟨row, hspec, hid, -⟩ := (mem_findExistingOverlaps db payload today ex exv tc).mp hmem
    exact hspec.2.2.1 exv hexv hid

/-- Witness for C1 at a concrete store and payload (candidate overlapping the
1:1 class `c1` of the same instructor on the same weekday). -/
theorem checkScheduleConflict_spec_witness :
    compatKeysNodup wDB ∧ validateSchedulePayload wPayload = [] ∧
    (∃ res, checkScheduleConflict wDB wPayload 0 (some "c9") = Except.ok res ∧
      (res.hasConflict = true ↔ ∃ row, specOverlapRow wDB wPayload 0 (some "c9") row ∧
        (specResolve wDB.class_type_compatibility wPayload.classTypeCode
          row.class_type_code).1 = false) ∧
      (∀ cid reason, (cid, reason) ∈ res.conflicts ↔
        ∃ row, specOverlapRow wDB wPayload 0 (some "c9") row ∧ row.id = cid ∧
          specResolve wDB.class_type_compatibility wPayload.classTypeCode
            row.class_type_code = (false, reason)) ∧
      (∀ exv, (some "c9" : Option String) = some exv →
        ∀ tc, (exv, tc) ∉ findExistingOverlaps wDB wPayload 0 (some "c9"))) :=
  ⟨by unfold compatKeysNodup; decide, by decide,
    checkScheduleConflict_spec wDB wPayload 0 (some "c9")
      (by unfold compatKeysNodup; decide) (by decide)⟩

/-! ## Characterization of materialized events -/

theorem truthy_some {iid : String} (hne : iid ≠ "") : truthy (some iid) = true := by
  simp [truthy, hne]

/-- A failed effective-instructor guard pins the effective instructor to the
viewer. -/
theorem guard_false_effective (params : WeeklyQuery) (eff : String)
    (hguard : ¬ (params.view == RoleView.instructor && truthy params.instructorId &&
      eff != params.instructorId.getD "") = true)
    (hview : params.view = RoleView.instructor) (iid : String)
    (hiid : params.instructorId = some iid) (hne : iid ≠ "") : eff = iid := by
  rw [hview, hiid] at hguard
  simp only [beq_self_eq_true, truthy_some hne, Bool.true_and, Option.getD_some] at hguard
  by_cases h : eff = iid
  · exact h
  · exact absurd (by simp [bne_iff_ne, h]) hguard

/-- The instructor-scope query filter pins the stored instructor to the
viewer. -/
theorem scoped_instructor (params : WeeklyQuery) (row : ClassRow)
    (h : instructorScoped params row = true)
    (hview : params.view = RoleView.instructor) (iid : String)
    (hiid : params.instructorId = some iid) (hne : iid ≠ "") : row.instructor_id = iid := by
  unfold instructorScoped at h
  rw [hview, hiid] at h
  rw [if_pos (by simp [truthy_some hne])] at h
  exact eq_of_beq h

/-- With unique override keys, the loaded week-override map resolves the key of
a stored override dated inside the week to that override. -/
theorem overrideMapGet_loaded (db : DB) (classIds : List String) (ws we : Date)
    (hnd : overrideKeysNodup db) (o : OverrideRow) (ho : o ∈ db.class_overrides)
    (hcid : o.class_id ∈ classIds) (h1 : ws ≤ o.override_date) (h2 : o.override_date ≤ we) :
    overrideMapGet (weekOverrides db classIds ws we) o.class_id o.override_date = some o := by
  have hmem : o ∈ weekOverrides db classIds ws we := by
    unfold weekOverrides
    refine List.mem_filter.mpr ⟨ho, ?_⟩
    rw [Bool.and_eq_true, Bool.and_eq_true]
    exact ⟨⟨List.elem_iff.mpr hcid, decide_eq_true h1⟩, decide_eq_true h2⟩
  unfold overrideMapGet
  refine lookup_eq_some_of_unique
    (fun o2 => o2.class_id == o.class_id && o2.override_date == o.override_date)
    (fun o2 => o2) _ o hmem (by simp) ?_
  intro x hx hpx
  have hx' : x ∈ db.class_overrides := List.mem_of_mem_filter hx
  rw [Bool.and_eq_true] at hpx
  have hkey : (x.class_id, x.override_date) = (o.class_id, o.override_date) := by
    rw [eq_of_beq hpx.1, eq_of_beq hpx.2]
  exact List.inj_on_of_nodup_map hnd hx' ho hkey

/-- Inversion of one materialization step: what must hold of a class row for it
to contribute an event, and how the event's fields relate to the row. -/
theorem materializeRow_some (db : DB) (params : WeeklyQuery) (ws : Date)
    (enr : List EnrollmentRow) (ovr : List OverrideRow) (nmap : List (String × String))
    (row : ClassRow) (e : ScheduleEvent)
    (h : materializeRow db params ws enr ovr nmap row = some e) :
    row.id = e.id ∧
    (params.view = RoleView.instructor → ∀ iid, params.instructorId = some iid → iid ≠ "" →
      e.instructorId = iid) ∧
    ((row.schedule_mode = ScheduleMode.recurring ∧ ∃ w, row.weekday = some w ∧ ¬ w = 0 ∧
        e.classDate = addDays ws (w - 1) ∧ row.active_from ≤ e.classDate ∧
        (∀ t, row.active_to = some t → e.classDate ≤ t)) ∨
     (row.schedule_mode = ScheduleMode.one_off ∧ row.class_date = some e.classDate)) ∧
    (∀ o, overrideMapGet ovr row.id e.classDate = some o →
      o.action ≠ OverrideAction.cancel) := by
  unfold materializeRow at h
  by_cases hbeq : (row.schedule_mode == ScheduleMode.recurring) = true
  · rw [if_pos hbeq] at h
    have hmode : row.schedule_mode = ScheduleMode.recurring := eq_of_beq hbeq
    cases hwd : row.weekday with
    | none =>
      rw [hwd] at h
      exact absurd (show (none : Option ScheduleEvent) = some e from h) (by simp)
    | some w =>
      rw [hwd] at h
      have h1 : (if (w == 0) = true then (none : Option ScheduleEvent)
          else if addDays ws (w - 1) < row.active_from then none
          else if (match row.active_to with
              | some t => decide (addDays ws (w - 1) > t)
              | none => false) = true then none
          else if (match overrideMapGet ovr row.id (addDays ws (w - 1)) with
              | some o => o.action == OverrideAction.cancel
              | none => false) = true then none
          else if (params.view == RoleView.instructor && truthy params.instructorId &&
              ((overrideMapGet ovr row.id (addDays ws (w - 1))).bind
                (fun o => o.override_instructor_id)).getD row.instructor_id !=
                params.instructorId.getD "") = true then none
          else some (classToEvent db row (addDays ws (w - 1)) w enr nmap
            (overrideMapGet ovr row.id (addDays ws (w - 1))))) = some e := h
      by_cases hw0 : (w == 0) = true
      · rw [if_pos hw0] at h1
        exact absurd h1 (by simp)
      · rw [if_neg hw0] at h1
        by_cases hfrom : addDays ws (w - 1) < row.active_from
        · rw [if_pos hfrom] at h1
          exact absurd h1 (by simp)
        · rw [if_neg hfrom] at h1
          by_cases hto : (match row.active_to with
              | some t => decide (addDays ws (w - 1) > t)
              | none => false) = true
          · rw [if_pos hto] at h1
            exact absurd h1 (by simp)
          · rw [if_neg hto] at h1
            by_cases hcanc : (match overrideMapGet ovr row.id (addDays ws (w - 1)) with
                | some o => o.action == OverrideAction.cancel
                | none => false) = true
            · rw [if_pos hcanc] at h1
              exact absurd h1 (by simp)
            · rw [if_neg hcanc] at h1
              by_cases hguard : (params.view == RoleView.instructor &&
                  truthy params.instructorId &&
                  ((overrideMapGet ovr row.id (addDays ws (w - 1))).bind
                    (fun o => o.override_instructor_id)).getD row.instructor_id !=
                    params.instructorId.getD "") = true
              · rw [if_pos hguard] at h1
                exact absurd h1 (by simp)
              · rw [if_neg hguard] at h1
                have he2 := Option.some.inj h1
                subst he2
                refine ⟨rfl, ?_, Or.inl ⟨hmode, w, rfl, ?_, rfl, ?_, ?_⟩, ?_⟩
                · intro hview iid hiid hne
                  exact guard_false_effective params _ hguard hview iid hiid hne
                · intro hw
                  exact hw0 (by simp [hw])
                · exact not_lt.mp hfrom
                · intro t ht
                  rw [ht] at hto
                  exact not_lt.mp (fun hgt => hto (decide_eq_true hgt))
                · intro o hlk hact
                  have hlk' : overrideMapGet ovr row.id (addDays ws (w - 1)) = some o := hlk
                  rw [hlk'] at hcanc
                  exact hcanc (by simp [hact])
  · rw [if_neg hbeq] at h
    have hmode : row.schedule_mode = ScheduleMode.one_off := by
      cases hx : row.schedule_mode
      · rw [hx] at hbeq
        exact absurd (by simp) hbeq
      · rfl
    cases hd : row.class_date with
    | none =>
      rw [hd] at h
      exact absurd (show (none : Option ScheduleEvent) = some e from h) (by simp)
    | some d =>
      rw [hd] at h
      have h1 : (if (match overrideMapGet ovr row.id d with
            | some o => o.action == OverrideAction.cancel
            | none => false) = true then (none : Option ScheduleEvent)
          else if (params.view == RoleView.instructor && truthy params.instructorId &&
              ((overrideMapGet ovr row.id d).bind
                (fun o => o.override_instructor_id)).getD row.instructor_id !=
                params.instructorId.getD "") = true then none
          else some (classToEvent db row d (dateToWeekday d) enr nmap
            (overrideMapGet ovr row.id d))) = some e := h
      by_cases hcanc : (match overrideMapGet ovr row.id d with
          | some o => o.action == OverrideAction.cancel
          | none => false) = true
      · rw [if_pos hcanc] at h1
        exact absurd h1 (by simp)
      · rw [if_neg hcanc] at h1
        by_cases hguard : (params.view == RoleView.instructor &&
            truthy params.instructorId &&
            ((overrideMapGet ovr row.id d).bind
              (fun o => o.override_instructor_id)).getD row.instructor_id !=
              params.instructorId.getD "") = true
        · rw [if_pos hguard] at h1
          exact absurd h1 (by simp)
        · rw [if_neg hguard] at h1
          have he2 := Option.some.inj h1
          subst he2
          refine ⟨rfl, ?_, Or.inr ⟨hmode, rfl⟩, ?_⟩
          · intro hview iid hiid hne
            exact guard_false_effective params _ hguard hview iid hiid hne
          · intro o hlk hact
            have hlk' : overrideMapGet ovr row.id d = some o := hlk
            rw [hlk'] at hcanc
            exact hcanc (by simp [hact])

/-- Every event of a materialized week originates in a stored class row of the
same id that passed the viewer scope; a recurring origin dates the event
exactly at `weekStart + (weekday - 1)` inside its active window, a one-off
origin at its stored date inside the week; for an instructor viewer the
event's (post-override) instructor is the viewer; and (given the schema's key
uniqueness and weekday bounds) no stored cancel override exists for the
event's (id, date). -/
theorem core_events_mem (db : DB) (params : WeeklyQuery) (scope : Option (List String))
    (e : ScheduleEvent)
    (he : e ∈ (fetchWeeklyCore db params params.weekStart
      (addDays params.weekStart 6) scope).events) :
    ∃ row, row ∈ db.classes ∧ row.id = e.id ∧
      instructorScoped params row = true ∧
      (params.view = RoleView.instructor → ∀ iid, params.instructorId = some iid → iid ≠ "" →
        e.instructorId = iid ∧ row.instructor_id = iid) ∧
      ((row.schedule_mode = ScheduleMode.recurring ∧ ∃ w, row.weekday = some w ∧ ¬ w = 0 ∧
          e.classDate = addDays params.weekStart (w - 1) ∧
          row.active_from ≤ e.classDate ∧
          (∀ t, row.active_to = some t → e.classDate ≤ t)) ∨
       (row.schedule_mode = ScheduleMode.one_off ∧ row.class_date = some e.classDate ∧
          params.weekStart ≤ e.classDate ∧ e.classDate ≤ addDays params.weekStart 6)) ∧
      (overrideKeysNodup db → weekdaysValid db →
        ∀ o ∈ db.class_overrides, o.class_id = e.id → o.override_date = e.classDate →
          o.action ≠ OverrideAction.cancel) := by
  unfold fetchWeeklyCore at he
  by_cases hcr : (weekClassRows db params params.weekStart
      (addDays params.weekStart 6) scope).isEmpty
  · rw [if_pos hcr] at he
    exact absurd he (by simp)
  · rw [if_neg hcr] at he
    have he' : e ∈ sortEvents ((weekClassRows db params params.weekStart
        (addDays params.weekStart 6) scope).filterMap
      (materializeRow db params params.weekStart
        (db.class_enrollments.filter (fun en =>
          ((weekClassRows db params params.weekStart (addDays params.weekStart 6) scope).map
            (fun r => r.id)).contains en.class_id))
        (weekOverrides db ((weekClassRows db params params.weekStart
          (addDays params.weekStart 6) scope).map (fun r => r.id))
          params.weekStart (addDays params.weekStart 6))
        (buildInstructorNameMap db
          (weekClassRows db params params.weekStart (addDays params.weekStart 6) scope)
          (weekOverrides db ((weekClassRows db params params.weekStart
            (addDays params.weekStart 6) scope).map (fun r => r.id))
            params.weekStart (addDays params.weekStart 6))))) := he
    rw [mem_sortEvents] at he'
    obtain ⟨row, hrowmem, hmat⟩ := List.mem_filterMap.mp he'
    have hscoped : row ∈ db.classes ∧ instructorScoped params row = true := by
      rcases List.mem_append.mp hrowmem with hrec | hone
      · have h := List.mem_filter.mp hrec
        have hb := h.2
        rw [Bool.and_eq_true, Bool.and_eq_true, Bool.and_eq_true, Bool.and_eq_true] at hb
        exact ⟨h.1, hb.1.2⟩
      · have h := List.mem_filter.mp hone
        have hb := h.2
        rw [Bool.and_eq_true, Bool.and_eq_true, Bool.and_eq_true] at hb
        exact ⟨h.1, hb.1.2⟩
    have honedate : row.schedule_mode = ScheduleMode.one_off →
        ∃ d, row.class_date = some d ∧ params.weekStart ≤ d ∧
          d ≤ addDays params.weekStart 6 := by
      intro hmode
      rcases List.mem_append.mp hrowmem with hrec | hone
      · have h := List.mem_filter.mp hrec
        have hb := h.2
        rw [Bool.and_eq_true, Bool.and_eq_true, Bool.and_eq_true, Bool.and_eq_true] at hb
        have hx := eq_of_beq hb.1.1.1.1
        rw [hmode] at hx
        exact absurd hx (by simp)
      · have h := List.mem_filter.mp hone
        have hb := h.2
        rw [Bool.and_eq_true, Bool.and_eq_true, Bool.and_eq_true] at hb
        have hdate := hb.1.1.2
        cases hcd : row.class_date with
        | none => rw [hcd] at hdate; exact absurd hdate (by simp)
        | some d =>
          rw [hcd] at hdate
          rw [Bool.and_eq_true] at hdate
          exact ⟨d, rfl, of_decide_eq_true hdate.1, of_decide_eq_true hdate.2⟩
    have hclassIds : row.id ∈ (weekClassRows db params params.weekStart
        (addDays params.weekStart 6) scope).map (fun r => r.id) :=
      List.mem_map_of_mem _ hrowmem
    obtain ⟨hid, hinstr, hdisj, hnocanc⟩ :=
      materializeRow_some db params params.weekStart _ _ _ row e hmat
    have hmodecase : (row.schedule_mode = ScheduleMode.recurring ∧ ∃ w,
        row.weekday = some w ∧ ¬ w = 0 ∧ e.classDate = addDays params.weekStart (w - 1) ∧
        row.active_from ≤ e.classDate ∧
        (∀ t, row.active_to = some t → e.classDate ≤ t)) ∨
        (row.schedule_mode = ScheduleMode.one_off ∧ row.class_date = some e.classDate ∧
          params.weekStart ≤ e.classDate ∧ e.classDate ≤ addDays params.weekStart 6) := by
      rcases hdisj with hrec | ⟨hmode, hdate⟩
      · exact Or.inl hrec
      · obtain ⟨d, hd, hr1, hr2⟩ := honedate hmode
        have : d = e.classDate := by
          rw [hd] at hdate
          exact Option.some.inj hdate
        subst this
        exact Or.inr ⟨hmode, hdate, hr1, hr2⟩
    have hrange : weekdaysValid db → params.weekStart ≤ e.classDate ∧
        e.classDate ≤ addDays params.weekStart 6 := by
      intro hwvalid
      rcases hmodecase with ⟨hmode, w, hwd, hw0, hdate, -, -⟩ | ⟨-, -, hr1, hr2⟩
      · have hw17 := hwvalid row hscoped.1 w hwd
        rw [hdate]
        constructor
        · exact le_add_of_nonneg_right (show (0 : Int) ≤ w - 1 by omega)
        · exact add_le_add_left (show (w - 1 : Int) ≤ 6 by omega) params.weekStart
      · exact ⟨hr1, hr2⟩
    refine ⟨row, hscoped.1, hid, hscoped.2, ?_, hmodecase, ?_⟩
    · intro hview iid hiid hne
      exact ⟨hinstr hview iid hiid hne,
        scoped_instructor params row hscoped.2 hview iid hiid hne⟩
    · intro hknodup hwvalid o ho hocid hodate
      have hr := hrange hwvalid
      have hlookup := overrideMapGet_loaded db
        ((weekClassRows db params params.weekStart (addDays params.weekStart 6)
          scope).map (fun r => r.id)) params.weekStart (addDays params.weekStart 6)
        hknodup o ho (by rw [hocid, ← hid]; exact hclassIds)
        (by rw [hodate]; exact hr.1) (by rw [hodate]; exact hr.2)
      rw [hocid, hodate, ← hid] at hlookup
      exact hnocanc o hlookup

/-- Lifting of `core_events_mem` to `fetchWeeklySchedule`. -/
theorem fetch_events_mem (db : DB) (params : WeeklyQuery) (r : ScheduleWeekResponse)
    (h : fetchWeeklySchedule db params = Except.ok r) (e : ScheduleEvent) (he : e ∈ r.events) :
    ∃ row, row ∈ db.classes ∧ row.id = e.id ∧
      instructorScoped params row = true ∧
      (params.view = RoleView.instructor → ∀ iid, params.instructorId = some iid → iid ≠ "" →
        e.instructorId = iid ∧ row.instructor_id = iid) ∧
      ((row.schedule_mode = ScheduleMode.recurring ∧ ∃ w, row.weekday = some w ∧ ¬ w = 0 ∧
          e.classDate = addDays params.weekStart (w - 1) ∧
          row.active_from ≤ e.classDate ∧
          (∀ t, row.active_to = some t → e.classDate ≤ t)) ∨
       (row.schedule_mode = ScheduleMode.one_off ∧ row.class_date = some e.classDate ∧
          params.weekStart ≤ e.classDate ∧ e.classDate ≤ addDays params.weekStart 6)) ∧
      (overrideKeysNodup db → weekdaysValid db →
        ∀ o ∈ db.class_overrides, o.class_id = e.id → o.override_date = e.classDate →
          o.action ≠ OverrideAction.cancel) := by
  unfold fetchWeeklySchedule at h
  by_cases hview : (params.view == RoleView.student) = true
  · rw [if_pos hview] at h
    by_cases hsid : truthy params.studentId = true
    · rw [if_neg (by simp [hsid])] at h
      by_cases hemp : (loadClassIdsForStudent db (params.studentId.getD "")).isEmpty = true
      · rw [if_pos hemp] at h
        have h2 : (⟨(weekRange params.weekStart).1, (weekRange params.weekStart).2, []⟩ :
            ScheduleWeekResponse) = r := Except.ok.inj h
        rw [← h2] at he
        exact absurd he (by simp)
      · rw [if_neg hemp] at h
        have h2 : fetchWeeklyCore db params (weekRange params.weekStart).1
            (weekRange params.weekStart).2
            (some (loadClassIdsForStudent db (params.studentId.getD ""))) = r :=
          Except.ok.inj h
        rw [← h2] at he
        exact core_events_mem db params _ e he
    · rw [if_pos (by simp [Bool.not_eq_true] at hsid; simp [hsid])] at h
      exact absurd h (by simp)
  · rw [if_neg hview] at h
    have h2 : fetchWeeklyCore db params (weekRange params.weekStart).1
        (weekRange params.weekStart).2 none = r := Except.ok.inj h
    rw [← h2] at he
    exact core_events_mem db params none e he

/-- C3 (amended): with an instructor viewer, every visible occurrence has the
viewer as its effective (post-override) instructor AND originates in a class
definition stored for the viewer.  A reschedule override that hands an
occurrence to another instructor therefore removes it from the viewer's week,
but a reassignment toward the viewer cannot surface another instructor's
definition (the counterexample shows the original claim's "makes it appear"
direction fails). -/
theorem instructorView_visibility (db : DB) (params : WeeklyQuery) (r : ScheduleWeekResponse)
    (iid : String) (hview : params.view = RoleView.instructor)
    (hiid : params.instructorId = some iid) (hne : iid ≠ "")
    (h : fetchWeeklySchedule db params = Except.ok r) :
    ∀ e ∈ r.events, e.instructorId = iid ∧
      ∃ row, row ∈ db.classes ∧ row.id = e.id ∧ row.instructor_id = iid := by
  intro e he
  obtain ⟨row, hmem, hid, -, hinstr, -, -⟩ := fetch_events_mem db params r h e he
  obtain ⟨h1, h2⟩ := hinstr hview iid hiid hne
  exact ⟨h1, row, hmem, hid, h2⟩

/-- Counterexample to C3 as stated: in `cDB3` the only definition belongs to
instructor `iB`, and a reschedule override reassigns its Monday occurrence
(date 4) to instructor `iA`; yet `iA`'s week starting day 4 is empty — the
occurrence whose effective instructor is the viewer does not appear. -/
theorem instructorView_reassign_in_counterexample :
    fetchWeeklySchedule cDB3 ⟨4, RoleView.instructor, some "iA", none⟩ =
      Except.ok ⟨4, 10, []⟩ ∧
    cDB3.class_overrides.map (fun o => (o.class_id, o.override_date, o.action,
      o.override_instructor_id)) = [("c1", 4, OverrideAction.reschedule, some "iA")] ∧
    cDB3.classes.map (fun row => (row.id, row.instructor_id, row.weekday)) =
      [("c1", "iB", some 1)] :=
  ⟨rfl, rfl, rfl⟩

/-- Witness for the amended C3 at the base store. -/
theorem instructorView_visibility_witness :
    ((⟨4, RoleView.instructor, some "i1", none⟩ : WeeklyQuery).view = RoleView.instructor) ∧
    fetchWeeklySchedule wDB ⟨4, RoleView.instructor, some "i1", none⟩ = Except.ok wResp ∧
    (∀ e ∈ wResp.events, e.instructorId = "i1" ∧
      ∃ row, row ∈ wDB.classes ∧ row.id = e.id ∧ row.instructor_id = "i1") :=
  ⟨rfl, by rfl, instructorView_visibility wDB ⟨4, RoleView.instructor, some "i1", none⟩ wResp "i1"
    rfl rfl (by decide) (by rfl)⟩

/-! ## At most one occurrence per definition -/

theorem weekClassRows_id_nodup (db : DB) (params : WeeklyQuery) (ws we : Date)
    (scope : Option (List String)) (hids : (db.classes.map (fun r => r.id)).Nodup) :
    ((weekClassRows db params ws we scope).map (fun r => r.id)).Nodup := by
  unfold weekClassRows
  rw [List.map_append, List.nodup_append]
  refine ⟨List.Nodup.sublist (List.Sublist.map _ (List.filter_sublist _)) hids,
    List.Nodup.sublist (List.Sublist.map _ (List.filter_sublist _)) hids, ?_⟩
  intro a ha1 ha2
  obtain ⟨x, hx, hxa⟩ := List.mem_map.mp ha1
  obtain ⟨y, hy, hya⟩ := List.mem_map.mp ha2
  have hxmem := List.mem_of_mem_filter hx
  have hymem := List.mem_of_mem_filter hy
  have hxmode : x.schedule_mode = ScheduleMode.recurring := by
    have hb := List.of_mem_filter hx
    rw [Bool.and_eq_true, Bool.and_eq_true, Bool.and_eq_true, Bool.and_eq_true] at hb
    exact eq_of_beq hb.1.1.1.1
  have hymode : y.schedule_mode = ScheduleMode.one_off := by
    have hb := List.of_mem_filter hy
    rw [Bool.and_eq_true, Bool.and_eq_true, Bool.and_eq_true] at hb
    exact eq_of_beq hb.1.1.1
  have hxy : x = y := List.inj_on_of_nodup_map hids hxmem hymem (hxa.trans hya.symm)
  rw [hxy, hymode] at hxmode
  exact absurd hxmode (by simp)

theorem core_events_id_nodup (db : DB) (params : WeeklyQuery) (ws we : Date)
    (scope : Option (List String)) (hids : (db.classes.map (fun r => r.id)).Nodup) :
    ((fetchWeeklyCore db params ws we scope).events.map (fun e => e.id)).Nodup := by
  unfold fetchWeeklyCore
  by_cases hcr : (weekClassRows db params ws we scope).isEmpty
  · rw [if_pos hcr]
    simp
  · rw [if_neg hcr]
    have hperm : (sortEvents ((weekClassRows db params ws we scope).filterMap
        (materializeRow db params ws
          (db.class_enrollments.filter (fun en =>
            ((weekClassRows db params ws we scope).map (fun r => r.id)).contains en.class_id))
          (weekOverrides db ((weekClassRows db params ws we scope).map (fun r => r.id)) ws we)
          (buildInstructorNameMap db (weekClassRows db params ws we scope)
            (weekOverrides db ((weekClassRows db params ws we scope).map (fun r => r.id))
              ws we))))).Perm
        ((weekClassRows db params ws we scope).filterMap
          (materializeRow db params ws
            (db.class_enrollments.filter (fun en =>
              ((weekClassRows db params ws we scope).map (fun r => r.id)).contains en.class_id))
            (weekOverrides db ((weekClassRows db params ws we scope).map (fun r => r.id)) ws we)
            (buildInstructorNameMap db (weekClassRows db params ws we scope)
              (weekOverrides db ((weekClassRows db params ws we scope).map (fun r => r.id))
                ws we)))) := perm_sortEvents _
    refine ((hperm.map (fun e => e.id)).nodup_iff).mpr ?_
    refine nodup_map_filterMap ?_ (weekClassRows_id_nodup db params ws we scope hids)
    intro row e hre
    exact ((materializeRow_some db params ws _ _ _ row e hre).1).symm

theorem fetch_events_id_nodup (db : DB) (params : WeeklyQuery) (r : ScheduleWeekResponse)
    (hids : (db.classes.map (fun row => row.id)).Nodup)
    (h : fetchWeeklySchedule db params = Except.ok r) :
    (r.events.map (fun e => e.id)).Nodup := by
  unfold fetchWeeklySchedule at h
  by_cases hview : (params.view == RoleView.student) = true
  · rw [if_pos hview] at h
    by_cases hsid : truthy params.studentId = true
    · rw [if_neg (by simp [hsid])] at h
      by_cases hemp : (loadClassIdsForStudent db (params.studentId.getD "")).isEmpty = true
      · rw [if_pos hemp] at h
        have h2 : (⟨(weekRange params.weekStart).1, (weekRange params.weekStart).2, []⟩ :
            ScheduleWeekResponse) = r := Except.ok.inj h
        rw [← h2]
        simp
      · rw [if_neg hemp] at h
        have h2 : fetchWeeklyCore db params (weekRange params.weekStart).1
            (weekRange params.weekStart).2
            (some (loadClassIdsForStudent db (params.studentId.getD ""))) = r :=
          Except.ok.inj h
        rw [← h2]
        exact core_events_id_nodup db params _ _ _ hids
    · rw [if_pos (by simp [Bool.not_eq_true] at hsid; simp [hsid])] at h
      exact absurd h (by simp)
  · rw [if_neg hview] at h
    have h2 : fetchWeeklyCore db params (weekRange params.weekStart).1
        (weekRange params.weekStart).2 none = r := Except.ok.inj h
    rw [← h2]
    exact core_events_id_nodup db params _ _ _ hids

/-- C6 (amended): every event a recurring definition contributes is dated
exactly `weekStart + (weekday - 1)` and lies inside the definition's
`[activeFrom, activeTo]` window, and (with unique stored ids) a definition
contributes at most one occurrence per requested week.  The window guarantee
holds for recurring definitions only: the counterexample shows a one-off
definition materializing outside its stored window. -/
theorem recurring_window_dates (db : DB) (params : WeeklyQuery) (r : ScheduleWeekResponse)
    (hids : (db.classes.map (fun row => row.id)).Nodup)
    (h : fetchWeeklySchedule db params = Except.ok r) :
    (∀ e ∈ r.events, ∃ row, row ∈ db.classes ∧ row.id = e.id ∧
      (row.schedule_mode = ScheduleMode.recurring →
        ∃ w, row.weekday = some w ∧ e.classDate = addDays params.weekStart (w - 1) ∧
          row.active_from ≤ e.classDate ∧
          (∀ t, row.active_to = some t → e.classDate ≤ t))) ∧
    (r.events.map (fun e => e.id)).Nodup := by
  refine ⟨?_, fetch_events_id_nodup db params r hids h⟩
  intro e he
  obtain ⟨row, hmem, hid, -, -, hdisj, -⟩ := fetch_events_mem db params r h e he
  refine ⟨row, hmem, hid, ?_⟩
  intro hmode
  rcases hdisj with ⟨-, w, hwd, -, hdate, hfrom, hto⟩ | ⟨hmode1, -⟩
  · exact ⟨w, hwd, hdate, hfrom, hto⟩
  · rw [hmode] at hmode1
    exact absurd hmode1 (by simp)

/-- Counterexample to C6 as stated: `cDB6` holds a one-off definition dated day
10 whose active window starts only at day 20, yet the week starting day 7
materializes its event on day 10 — an event outside the definition's
`[activeFrom, activeTo]` window. -/
theorem one_off_outside_window_counterexample :
    (fetchWeeklySchedule cDB6 ⟨7, RoleView.instructor, none, none⟩).map
      (fun r => r.events.map (fun e => (e.id, e.classDate))) =
      Except.ok [("c1", (10 : Date))] ∧
    cDB6.classes.map (fun row => (row.id, row.schedule_mode, row.active_from)) =
      [("c1", ScheduleMode.one_off, (20 : Date))] :=
  ⟨by rfl, rfl⟩

/-- Witness for the amended C6 at the base store. -/
theorem recurring_window_dates_witness :
    (wDB.classes.map (fun row => row.id)).Nodup ∧
    fetchWeeklySchedule wDB ⟨4, RoleView.instructor, some "i1", none⟩ = Except.ok wResp ∧
    ((∀ e ∈ wResp.events, ∃ row, row ∈ wDB.classes ∧ row.id = e.id ∧
      (row.schedule_mode = ScheduleMode.recurring →
        ∃ w, row.weekday = some w ∧ e.classDate = addDays (4 : Date) (w - 1) ∧
          row.active_from ≤ e.classDate ∧
          (∀ t, row.active_to = some t → e.classDate ≤ t))) ∧
    (wResp.events.map (fun e => e.id)).Nodup) :=
  ⟨by decide, by rfl,
    recurring_window_dates wDB ⟨4, RoleView.instructor, some "i1", none⟩ wResp
      (by decide) (by rfl)⟩

/-! ## Cancel overrides -/

theorem weekOverrides_filter_out (db : DB) (cid : String) (d : Date) (ids : List String)
    (ws we : Date) (hout : ¬ (ws ≤ d ∧ d ≤ we)) :
    weekOverrides (removeOverride db cid d) ids ws we = weekOverrides db ids ws we := by
  unfold weekOverrides
  rw [show (removeOverride db cid d).class_overrides =
    db.class_overrides.filter (fun o => !(o.class_id == cid && o.override_date == d)) from rfl]
  rw [List.filter_filter]
  apply List.filter_congr
  intro o ho
  by_cases hp : (ids.contains o.class_id && decide (ws ≤ o.override_date) &&
      decide (o.override_date ≤ we)) = true
  · rw [hp]
    have hrange : ws ≤ o.override_date ∧ o.override_date ≤ we := by
      rw [Bool.and_eq_true, Bool.and_eq_true] at hp
      exact ⟨of_decide_eq_true hp.1.2, of_decide_eq_true hp.2⟩
    have hne : o.override_date ≠ d := by
      intro hde
      exact hout ⟨hde ▸ hrange.1, hde ▸ hrange.2⟩
    simp [hne]
  · rw [show (ids.contains o.class_id && decide (ws ≤ o.override_date) &&
      decide (o.override_date ≤ we)) = false from by
        cases hx : (ids.contains o.class_id && decide (ws ≤ o.override_date) &&
          decide (o.override_date ≤ we))
        · rfl
        · exact absurd hx hp]
    simp

theorem fetchWeeklyCore_override_filter (db : DB) (cid : String) (d : Date)
    (params : WeeklyQuery) (ws we : Date) (scope : Option (List String))
    (hout : ¬ (ws ≤ d ∧ d ≤ we)) :
    fetchWeeklyCore (removeOverride db cid d) params ws we scope =
    fetchWeeklyCore db params ws we scope := by
  unfold fetchWeeklyCore
  simp only [weekOverrides_filter_out db cid d _ ws we hout]
  rfl

theorem fetchWeekly_override_filter (db : DB) (cid : String) (d : Date)
    (params : WeeklyQuery)
    (hout : ¬ (params.weekStart ≤ d ∧ d ≤ addDays params.weekStart 6)) :
    fetchWeeklySchedule (removeOverride db cid d) params = fetchWeeklySchedule db params := by
  unfold fetchWeeklySchedule
  simp only [weekRange]
  simp only [fetchWeeklyCore_override_filter db cid d params _ _ _ hout]
  rfl

/-- C7: a cancel override keyed `(definitionId, occurrenceDate)` suppresses
exactly that occurrence: no event with that id and date is ever materialized,
and the materialization of any week not containing that date (in particular the
same weekday in other weeks) is unchanged when the override is removed. -/
theorem cancelOverride_week_effect :
    (∀ db params r ov, overrideKeysNodup db → weekdaysValid db →
      ov ∈ db.class_overrides → ov.action = OverrideAction.cancel →
      fetchWeeklySchedule db params = Except.ok r →
      ∀ e ∈ r.events, ¬ (e.id = ov.class_id ∧ e.classDate = ov.override_date)) ∧
    (∀ db params cid d, ¬ (params.weekStart ≤ d ∧ d ≤ addDays params.weekStart 6) →
      fetchWeeklySchedule (removeOverride db cid d) params = fetchWeeklySchedule db params) := by
  constructor
  · rintro db params r ov hknodup hwvalid hov hact h e he ⟨h1, h2⟩
    obtain ⟨row, -, -, -, -, -, hnocanc⟩ := fetch_events_mem db params r h e he
    exact hnocanc hknodup hwvalid ov hov h1.symm h2.symm hact
  · intro db params cid d hout
    exact fetchWeekly_override_filter db cid d params hout

/-- Witness for C7: in `cDB7` the cancel override on `(c1, day 4)` removes
exactly `c1`'s Monday event from the week starting day 4, and removing the
override leaves the week starting day 11 (same weekday, next week) unchanged. -/
theorem cancelOverride_week_effect_witness :
    overrideKeysNodup cDB7 ∧ weekdaysValid cDB7 ∧
    (⟨"c1", 4, OverrideAction.cancel, none, none, none, none⟩ : OverrideRow) ∈
      cDB7.class_overrides ∧
    fetchWeeklySchedule cDB7 ⟨4, RoleView.instructor, some "i1", none⟩ = Except.ok cResp7 ∧
    (∀ e ∈ cResp7.events, ¬ (e.id = (⟨"c1", 4, OverrideAction.cancel, none, none, none,
      none⟩ : OverrideRow).class_id ∧ e.classDate = (⟨"c1", 4, OverrideAction.cancel, none,
      none, none, none⟩ : OverrideRow).override_date)) ∧
    (¬ ((11 : Date) ≤ 4 ∧ (4 : Date) ≤ addDays 11 6) ∧
      fetchWeeklySchedule (removeOverride cDB7 "c1" 4)
          ⟨11, RoleView.instructor, some "i1", none⟩ =
        fetchWeeklySchedule cDB7 ⟨11, RoleView.instructor, some "i1", none⟩) := by
  have hwv : weekdaysValid cDB7 := by
    intro row hrow w hw
    have hrow' : row = wClass1 ∨ row = wClass2 ∨ row = wClass3 := by
      simpa [cDB7, wDB] using hrow
    rcases hrow' with rfl | rfl | rfl <;>
      (simp only [wClass1, wClass2, wClass3, Option.some.injEq] at hw; omega)
  refine ⟨by unfold overrideKeysNodup; decide, hwv, by decide, by rfl, ?_, by decide, ?_⟩
  · exact (cancelOverride_week_effect).1 cDB7 ⟨4, RoleView.instructor, some "i1", none⟩
      cResp7 ⟨"c1", 4, OverrideAction.cancel, none, none, none, none⟩
      (by unfold overrideKeysNodup; decide) hwv (by decide) rfl (by rfl)
  · exact (cancelOverride_week_effect).2 cDB7 ⟨11, RoleView.instructor, some "i1", none⟩
      "c1" 4 (by decide)

/-! ## Creation and import: capacity and write behavior -/

theorem importWiden_enrollments (db : DB) (payload : CreateScheduleRequest) (cid : String)
    (af : Date) (ato : Option Date) :
    (importWiden db payload cid af ato).class_enrollments = db.class_enrollments := by
  unfold importWiden
  cases hm : payload.scheduleMode == ScheduleMode.recurring <;>
    cases haf : payload.activeFrom <;> cases hato : ato <;>
      simp only [hm, haf, hato, if_true, if_false] <;>
      first
        | rfl
        | (split <;> rfl)

/-- C4 (amended): a capacity violation found by `importScheduleRow` on an
existing full class is returned as a structured conflict result without
throwing, but `createScheduleWithEnrollments` throws an error (does not return
a structured result) when the distinct student count exceeds the class type's
capacity. -/
theorem capacity_violation_surface :
    (∀ db payload actor today nid f classType,
      validateSchedulePayload { payload with studentIds := jsSetDedup payload.studentIds } =
        [] →
      getClassType db payload.classTypeCode = Except.ok classType →
      (jsSetDedup payload.studentIds).length > classType.maxStudents →
      createScheduleWithEnrollments db payload actor today nid f =
        (Except.error (capacityErrorMessage classType), db)) ∧
    (∀ db payload actor today nid f exact classType sid,
      validateSchedulePayload { payload with studentIds := jsSetDedup payload.studentIds } =
        [] →
      (jsSetDedup payload.studentIds).headD "" = sid → ¬ sid = "" →
      (db.classes.filter (exactSignatureMatch payload)).head? = some exact →
      db.class_enrollments.find? (fun e =>
        e.class_id == exact.id && e.student_id == sid) = none →
      getClassType db payload.classTypeCode = Except.ok classType →
      (db.class_enrollments.filter (fun e => e.class_id == exact.id)).length ≥
        classType.maxStudents →
      importScheduleRow db payload actor today nid f =
        (Except.ok ⟨ImportStatus.conflict, exact.id,
          ⟨true, [(exact.id, importCapacityReason classType)]⟩⟩,
          importWiden db payload exact.id exact.active_from exact.active_to) ∧
        (importWiden db payload exact.id exact.active_from
          exact.active_to).class_enrollments = db.class_enrollments) := by
  constructor
  · intro db payload actor today nid f classType hv hct hcap
    unfold createScheduleWithEnrollments
    simp only [hv, hct]
    rw [if_pos trivial, if_pos hcap]
  · intro db payload actor today nid f exact classType sid hv hsid hsidne hex henr hct hcount
    refine ⟨?_, importWiden_enrollments db payload exact.id exact.active_from exact.active_to⟩
    unfold importScheduleRow
    simp only [hv, hsid, take_one_head?, hex, henr, hct, importWiden_enrollments]
    rw [if_pos trivial, if_neg hsidne, if_pos hcount]

/-- Counterexample to C4 as stated: with two distinct students against the 1:1
type (capacity 1), `createScheduleWithEnrollments` surfaces the capacity
violation as a thrown error, not as a structured result. -/
theorem createSchedule_capacity_throws_counterexample :
    createScheduleWithEnrollments wDB cPayload4 "u1" 0 "n1" false =
      (Except.error "Class type 1:1 supports max 1 students", wDB) ∧
    (jsSetDedup cPayload4.studentIds).length = 2 ∧
    getClassType wDB cPayload4.classTypeCode =
      Except.ok ⟨"ONE_TO_ONE", "1:1", "[1:1]", 1⟩ :=
  ⟨by rfl, by rfl, by rfl⟩

/-- Witness for the amended C4: the throwing create path at `cPayload4` and the
structured conflict of importing into the full 1:1 class `c3`. -/
theorem capacity_violation_surface_witness :
    (validateSchedulePayload { cPayload4 with studentIds := jsSetDedup cPayload4.studentIds } =
      [] ∧
     (jsSetDedup cPayload4.studentIds).length >
      (⟨"ONE_TO_ONE", "1:1", "[1:1]", 1⟩ : ClassTypeOption).maxStudents ∧
     createScheduleWithEnrollments wDB cPayload4 "u1" 0 "n1" false =
      (Except.error (capacityErrorMessage ⟨"ONE_TO_ONE", "1:1", "[1:1]", 1⟩), wDB)) ∧
    ((wDB.classes.filter (exactSignatureMatch wImportC3)).head? = some wClass3 ∧
     (wDB.class_enrollments.filter (fun e => e.class_id == wClass3.id)).length ≥
      (⟨"ONE_TO_ONE", "1:1", "[1:1]", 1⟩ : ClassTypeOption).maxStudents ∧
     importScheduleRow wDB wImportC3 "u1" 0 "n1" false =
      (Except.ok ⟨ImportStatus.conflict, wClass3.id,
        ⟨true, [(wClass3.id, importCapacityReason ⟨"ONE_TO_ONE", "1:1", "[1:1]", 1⟩)]⟩⟩,
        importWiden wDB wImportC3 wClass3.id wClass3.active_from wClass3.active_to)) :=
  ⟨⟨by decide, by decide,
    (capacity_violation_surface).1 wDB cPayload4 "u1" 0 "n1" false
      ⟨"ONE_TO_ONE", "1:1", "[1:1]", 1⟩ (by decide) (by rfl) (by decide)⟩,
   ⟨by decide, by decide,
    ((capacity_violation_surface).2 wDB wImportC3 "u1" 0 "n1" false wClass3
      ⟨"ONE_TO_ONE", "1:1", "[1:1]", 1⟩ "s2" (by decide) (by decide) (by decide) (by decide)
      (by decide) (by rfl) (by decide)).1⟩⟩

/-- C5: `createScheduleWithEnrollments` writes nothing on a reported conflict
(returning the conflict result with an empty classId and the unchanged store),
and when the enrollment insert fails after the definition row was inserted, the
definition row is deleted again (compensating delete) and the operation fails
with the store unchanged, so no state with a definition but no enrollments
persists. -/
theorem createSchedule_no_partial_writes :
    (∀ db payload actor today nid f conflict classType,
      validateSchedulePayload { payload with studentIds := jsSetDedup payload.studentIds } =
        [] →
      getClassType db payload.classTypeCode = Except.ok classType →
      ¬ (jsSetDedup payload.studentIds).length > classType.maxStudents →
      checkScheduleConflict db { payload with studentIds := jsSetDedup payload.studentIds }
        today none = Except.ok conflict →
      conflict.hasConflict = true →
      createScheduleWithEnrollments db payload actor today nid f =
        (Except.ok ⟨"", conflict⟩, db)) ∧
    (∀ db payload actor today nid conflict classType,
      validateSchedulePayload { payload with studentIds := jsSetDedup payload.studentIds } =
        [] →
      getClassType db payload.classTypeCode = Except.ok classType →
      ¬ (jsSetDedup payload.studentIds).length > classType.maxStudents →
      checkScheduleConflict db { payload with studentIds := jsSetDedup payload.studentIds }
        today none = Except.ok conflict →
      conflict.hasConflict = false →
      (∀ r ∈ db.classes, r.id ≠ nid) →
      createScheduleWithEnrollments db payload actor today nid true =
        (Except.error "enrollment insert failed", db)) := by
  constructor
  · intro db payload actor today nid f conflict classType hv hct hcap hconf hhc
    unfold createScheduleWithEnrollments
    simp only [hv, hct, hconf, hhc]
    rw [if_pos trivial, if_neg hcap, if_pos trivial]
  · intro db payload actor today nid conflict classType hv hct hcap hconf hhc hfresh
    unfold createScheduleWithEnrollments
    simp only [hv, hct, hconf, hhc]
    rw [if_pos trivial, if_neg hcap, if_neg Bool.false_ne_true, if_pos trivial]
    have h1 : (db.classes ++ [classInsertRow payload actor today nid]).filter
        (fun r => r.id != nid) = db.classes := by
      rw [List.filter_append]
      have h2 : db.classes.filter (fun r => r.id != nid) = db.classes := by
        apply List.filter_eq_self.mpr
        intro r hr
        simp only [bne_iff_ne, ne_eq, decide_not]
        simp only [decide_eq_true_eq] at *
        exact hfresh r hr
      have h3 : [classInsertRow payload actor today nid].filter
          (fun r => r.id != nid) = [] := by
        simp [classInsertRow]
      rw [h2, h3, List.append_nil]
    rw [h1]

/-- Witness for C5: the overlapping 1:1 candidate is rejected with no write,
and the conflict-free candidate with a failing enrollment insert rolls back to
the original store. -/
theorem createSchedule_no_partial_writes_witness :
    (checkScheduleConflict wDB { wPayload with studentIds := jsSetDedup wPayload.studentIds }
      0 none = Except.ok ⟨true, [("c1", "no double one-to-one")]⟩ ∧
     createScheduleWithEnrollments wDB wPayload "u1" 0 "n1" false =
      (Except.ok ⟨"", ⟨true, [("c1", "no double one-to-one")]⟩⟩, wDB)) ∧
    (checkScheduleConflict wDB
      { wPayloadFree with studentIds := jsSetDedup wPayloadFree.studentIds } 0 none =
      Except.ok ⟨false, []⟩ ∧
     createScheduleWithEnrollments wDB wPayloadFree "u1" 0 "n1" true =
      (Except.error "enrollment insert failed", wDB)) :=
  ⟨⟨by rfl,
    (createSchedule_no_partial_writes).1 wDB wPayload "u1" 0 "n1" false
      ⟨true, [("c1", "no double one-to-one")]⟩ ⟨"ONE_TO_ONE", "1:1", "[1:1]", 1⟩
      (by decide) (by rfl) (by decide) (by rfl) (by rfl)⟩,
   ⟨by rfl,
    (createSchedule_no_partial_writes).2 wDB wPayloadFree "u1" 0 "n1"
      ⟨false, []⟩ ⟨"REGULAR_MULTI", "RM", "[RM]", 8⟩
      (by decide) (by rfl) (by decide) (by rfl) (by rfl) (by decide)⟩⟩

/-! ## Import idempotence helpers -/

theorem find?_append_none {α : Type} (p : α → Bool) (l₁ l₂ : List α)
    (h : ∀ x ∈ l₁, p x = false) : (l₁ ++ l₂).find? p = l₂.find? p := by
  induction l₁ with
  | nil => rfl
  | cons a t ih =>
    have ha : p a = false := h a (List.mem_cons_self a t)
    have ht : ∀ x ∈ t, p x = false := fun x hx => h x (List.mem_cons_of_mem a hx)
    rw [List.cons_append, List.find?_cons_of_neg _ (by simp [ha]), ih ht]

theorem exactSignatureMatch_classInsertRow (payload : CreateScheduleRequest)
    (actor : String) (today : Date) (nid : String) :
    exactSignatureMatch payload (classInsertRow payload actor today nid) = true := by
  cases hm : payload.scheduleMode <;>
    simp [exactSignatureMatch, classInsertRow, hm]

theorem importWiden_self (db : DB) (payload : CreateScheduleRequest) (cid : String)
    (today : Date) :
    importWiden db payload cid (payload.activeFrom.getD today) none = db := by
  unfold importWiden
  cases hm : payload.scheduleMode == ScheduleMode.recurring <;>
    cases haf : payload.activeFrom <;>
      simp [hm, haf]

/-- C8: `importScheduleRow` is idempotent by exact signature. On an
exact-signature match: the recurring active window is widened to cover an
earlier `activeFrom`; an already-enrolled student yields status `existing`
with no enrollment insert; a not-enrolled student below capacity is enrolled
(status `enrolled`); at capacity it returns `conflict` without enrolling. With
no exact match it delegates to `createScheduleWithEnrollments` (status
`created` or `conflict`). Importing the identical row twice leaves the stored
state unchanged on the second call. -/
theorem importScheduleRow_idempotent_by_signature :
    (∀ db payload cid af ato naf cl,
      payload.scheduleMode = ScheduleMode.recurring →
      payload.activeFrom = some naf →
      af > naf →
      (match ato with | some t => decide (t < naf) | none => false) = cl →
      importWiden db payload cid af ato =
        { db with classes := db.classes.map (fun r =>
            if r.id == cid then
              { r with
                active_from := naf
                active_to := if cl then none else r.active_to }
            else r) }) ∧
    (∀ db payload actor today nid f exact erow sid,
      validateSchedulePayload { payload with studentIds := jsSetDedup payload.studentIds } =
        [] →
      (jsSetDedup payload.studentIds).headD "" = sid → ¬ sid = "" →
      (db.classes.filter (exactSignatureMatch payload)).head? = some exact →
      db.class_enrollments.find? (fun e =>
        e.class_id == exact.id && e.student_id == sid) = some erow →
      importScheduleRow db payload actor today nid f =
        (Except.ok ⟨ImportStatus.existing, exact.id, ⟨false, []⟩⟩,
          importWiden db payload exact.id exact.active_from exact.active_to)) ∧
    (∀ db payload actor today nid exact classType sid,
      validateSchedulePayload { payload with studentIds := jsSetDedup payload.studentIds } =
        [] →
      (jsSetDedup payload.studentIds).headD "" = sid → ¬ sid = "" →
      (db.classes.filter (exactSignatureMatch payload)).head? = some exact →
      db.class_enrollments.find? (fun e =>
        e.class_id == exact.id && e.student_id == sid) = none →
      getClassType db payload.classTypeCode = Except.ok classType →
      ¬ (db.class_enrollments.filter (fun e => e.class_id == exact.id)).length ≥
        classType.maxStudents →
      importScheduleRow db payload actor today nid false =
        (Except.ok ⟨ImportStatus.enrolled, exact.id, ⟨false, []⟩⟩,
          { importWiden db payload exact.id exact.active_from exact.active_to with
            class_enrollments :=
              db.class_enrollments ++ [EnrollmentRow.mk exact.id sid] })) ∧
    (∀ db payload actor today nid f exact classType sid,
      validateSchedulePayload { payload with studentIds := jsSetDedup payload.studentIds } =
        [] →
      (jsSetDedup payload.studentIds).headD "" = sid → ¬ sid = "" →
      (db.classes.filter (exactSignatureMatch payload)).head? = some exact →
      db.class_enrollments.find? (fun e =>
        e.class_id == exact.id && e.student_id == sid) = none →
      getClassType db payload.classTypeCode = Except.ok classType →
      (db.class_enrollments.filter (fun e => e.class_id == exact.id)).length ≥
        classType.maxStudents →
      importScheduleRow db payload actor today nid f =
        (Except.ok ⟨ImportStatus.conflict, exact.id,
          ⟨true, [(exact.id, importCapacityReason classType)]⟩⟩,
          importWiden db payload exact.id exact.active_from exact.active_to)) ∧
    (∀ db payload actor today nid f created db',
      validateSchedulePayload { payload with studentIds := jsSetDedup payload.studentIds } =
        [] →
      ¬ (jsSetDedup payload.studentIds).headD "" = "" →
      (db.classes.filter (exactSignatureMatch payload)).head? = none →
      createScheduleWithEnrollments db payload actor today nid f =
        (Except.ok created, db') →
      importScheduleRow db payload actor today nid f =
        (Except.ok ⟨(if created.conflict.hasConflict then ImportStatus.conflict
            else ImportStatus.created),
          (if created.conflict.hasConflict then "" else created.classId),
          created.conflict⟩, db')) ∧
    (∀ db payload actor today nid conflict classType sid,
      validateSchedulePayload { payload with studentIds := jsSetDedup payload.studentIds } =
        [] →
      (jsSetDedup payload.studentIds).headD "" = sid → ¬ sid = "" →
      (db.classes.filter (exactSignatureMatch payload)).head? = none →
      getClassType db payload.classTypeCode = Except.ok classType →
      ¬ (jsSetDedup payload.studentIds).length > classType.maxStudents →
      checkScheduleConflict db { payload with studentIds := jsSetDedup payload.studentIds }
        today none = Except.ok conflict →
      conflict.hasConflict = false →
      (∀ e ∈ db.class_enrollments, e.class_id ≠ nid) →
      importScheduleRow db payload actor today nid false =
        (Except.ok ⟨ImportStatus.created, nid, conflict⟩,
          { db with
            classes := db.classes ++ [classInsertRow payload actor today nid]
            class_enrollments := db.class_enrollments ++
              (jsSetDedup payload.studentIds).map (fun s => EnrollmentRow.mk nid s) }) ∧
      importScheduleRow
        { db with
          classes := db.classes ++ [classInsertRow payload actor today nid]
          class_enrollments := db.class_enrollments ++
            (jsSetDedup payload.studentIds).map (fun s => EnrollmentRow.mk nid s) }
        payload actor today nid false =
        (Except.ok ⟨ImportStatus.existing, nid, ⟨false, []⟩⟩,
          { db with
            classes := db.classes ++ [classInsertRow payload actor today nid]
            class_enrollments := db.class_enrollments ++
              (jsSetDedup payload.studentIds).map (fun s => EnrollmentRow.mk nid s) })) := by
  refine ⟨?_, ?_, ?_, ?_, ?_, ?_⟩
  · intro db payload cid af ato naf cl hm haf hup hcl
    have hm' : (payload.scheduleMode == ScheduleMode.recurring) = true := by
      rw [hm]; rfl
    have hup' : decide (af > naf) = true := decide_eq_true hup
    cases ato with
    | none =>
      have hcl' : false = cl := hcl
      subst hcl'
      unfold importWiden
      simp only [hm', if_true, haf, hup', Bool.true_or, eq_self_iff_true]
    | some t =>
      have hcl' : decide (t < naf) = cl := hcl
      subst hcl'
      unfold importWiden
      simp only [hm', if_true, haf, hup', Bool.true_or, eq_self_iff_true]
  · intro db payload actor today nid f exact erow sid hv hsid hsidne hex henr
    unfold importScheduleRow
    simp only [hv, hsid, take_one_head?, hex, henr]
    rw [if_pos trivial, if_neg hsidne]
  · intro db payload actor today nid exact classType sid hv hsid hsidne hex henr hct hcount
    unfold importScheduleRow
    simp only [hv, hsid, take_one_head?, hex, henr, hct, importWiden_enrollments]
    rw [if_pos trivial, if_neg hsidne, if_neg hcount, if_neg Bool.false_ne_true]
  · intro db payload actor today nid f exact classType sid hv hsid hsidne hex henr hct hcount
    unfold importScheduleRow
    simp only [hv, hsid, take_one_head?, hex, henr, hct, importWiden_enrollments]
    rw [if_pos trivial, if_neg hsidne, if_pos hcount]
  · intro db payload actor today nid f created db' hv hsidne hex0 hcr
    unfold importScheduleRow
    simp only [hv, take_one_head?, hex0, hcr]
    rw [if_pos trivial, if_neg hsidne]
    by_cases hc : created.conflict.hasConflict = true
    · simp [hc]
    · simp [hc]
  · intro db payload actor today nid conflict classType sid hv hsid hsidne hex0 hct hcap
      hconf hhc hfresh
    have hmatch := exactSignatureMatch_classInsertRow payload actor today nid
    have hnil : db.classes.filter (exactSignatureMatch payload) = [] :=
      List.head?_eq_none_iff.mp hex0
    have hcr : createScheduleWithEnrollments db payload actor today nid false =
        (Except.ok ⟨nid, conflict⟩,
          { db with
            classes := db.classes ++ [classInsertRow payload actor today nid]
            class_enrollments := db.class_enrollments ++
              (jsSetDedup payload.studentIds).map (fun s => EnrollmentRow.mk nid s) }) := by
      unfold createScheduleWithEnrollments
      simp only [hv, hct, hconf, hhc]
      rw [if_pos trivial, if_neg hcap, if_neg Bool.false_ne_true,
        if_neg Bool.false_ne_true]
    constructor
    · unfold importScheduleRow
      simp only [hv, hsid, take_one_head?, hex0, hcr, hhc]
      rw [if_pos trivial, if_neg (hsid ▸ hsidne), if_neg Bool.false_ne_true]
    · have h2ex : ((db.classes ++ [classInsertRow payload actor today nid]).filter
          (exactSignatureMatch payload)).head? =
          some (classInsertRow payload actor today nid) := by
        rw [List.filter_append, hnil, List.nil_append, List.filter_cons, if_pos hmatch,
          List.filter_nil]
        rfl
      have h2enr : (db.class_enrollments ++ (jsSetDedup payload.studentIds).map
          (fun s => EnrollmentRow.mk nid s)).find? (fun e =>
            e.class_id == nid && e.student_id == sid) =
          some (EnrollmentRow.mk nid sid) := by
        rw [find?_append_none]
        · cases hd : jsSetDedup payload.studentIds with
          | nil =>
            have : sid = "" := by rw [← hsid, hd]; rfl
            exact absurd this hsidne
          | cons a t =>
            have ha : a = sid := by rw [← hsid, hd]; rfl
            subst ha
            rw [List.map_cons, List.find?_cons_of_pos _ (by simp)]
        · intro e he
          have hne : e.class_id ≠ nid := hfresh e he
          rw [show (e.class_id == nid) = false from beq_eq_false_iff_ne.mpr hne,
            Bool.false_and]
      have hproj0 : (classInsertRow payload actor today nid).id = nid := rfl
      have hproj1 : (classInsertRow payload actor today nid).active_from =
        payload.activeFrom.getD today := rfl
      have hproj2 : (classInsertRow payload actor today nid).active_to =
        (none : Option Date) := rfl
      unfold importScheduleRow
      simp only [hv, hsid, take_one_head?, h2ex, hproj0, hproj1, hproj2,
        importWiden_self, h2enr]
      rw [if_pos trivial, if_neg hsidne]

/-- Witness for C8: widening, existing, enrolled, capacity-conflict, delegate
and second-call idempotence, each at a concrete store. -/
theorem importScheduleRow_idempotent_by_signature_witness :
    importWiden wDB wImportC2 "c2" 0 none =
      { wDB with classes := wDB.classes.map (fun r =>
          if r.id == "c2" then
            { r with
              active_from := -5
              active_to := if false then none else r.active_to }
          else r) } ∧
    importScheduleRow wDB wImportC2 "u1" 0 "n1" false =
      (Except.ok ⟨ImportStatus.existing, wClass2.id, ⟨false, []⟩⟩,
        importWiden wDB wImportC2 wClass2.id wClass2.active_from wClass2.active_to) ∧
    importScheduleRow wDB { wImportC2 with studentIds := ["s2"] } "u1" 0 "n1" false =
      (Except.ok ⟨ImportStatus.enrolled, wClass2.id, ⟨false, []⟩⟩,
        { importWiden wDB { wImportC2 with studentIds := ["s2"] } wClass2.id
            wClass2.active_from wClass2.active_to with
          class_enrollments :=
            wDB.class_enrollments ++ [EnrollmentRow.mk wClass2.id "s2"] }) ∧
    importScheduleRow wDB
      { instructorId := "i1", studentIds := ["s2"], subjectCode := "MATH",
        classTypeCode := "ONE_TO_ONE", note := "n",
        scheduleMode := ScheduleMode.recurring, weekday := some 1,
        activeFrom := some 0, startTime := 600, endTime := 660 } "u1" 0 "n1" false =
      (Except.ok ⟨ImportStatus.conflict, wClass1.id,
        ⟨true, [(wClass1.id, importCapacityReason ⟨"ONE_TO_ONE", "1:1", "[1:1]", 1⟩)]⟩⟩,
        importWiden wDB
          { instructorId := "i1", studentIds := ["s2"], subjectCode := "MATH",
            classTypeCode := "ONE_TO_ONE", note := "n",
            scheduleMode := ScheduleMode.recurring, weekday := some 1,
            activeFrom := some 0, startTime := 600, endTime := 660 }
          wClass1.id wClass1.active_from wClass1.active_to) ∧
    importScheduleRow wDB wPayload "u1" 0 "n1" false =
      (Except.ok ⟨ImportStatus.conflict, "",
        ⟨true, [("c1", "no double one-to-one")]⟩⟩, wDB) ∧
    (importScheduleRow wDB wPayloadFree "u1" 0 "n1" false =
      (Except.ok ⟨ImportStatus.created, "n1", ⟨false, []⟩⟩,
        { wDB with
          classes := wDB.classes ++ [classInsertRow wPayloadFree "u1" 0 "n1"]
          class_enrollments := wDB.class_enrollments ++
            (jsSetDedup wPayloadFree.studentIds).map
              (fun s => EnrollmentRow.mk "n1" s) }) ∧
     importScheduleRow
      { wDB with
        classes := wDB.classes ++ [classInsertRow wPayloadFree "u1" 0 "n1"]
        class_enrollments := wDB.class_enrollments ++
          (jsSetDedup wPayloadFree.studentIds).map
            (fun s => EnrollmentRow.mk "n1" s) }
      wPayloadFree "u1" 0 "n1" false =
      (Except.ok ⟨ImportStatus.existing, "n1", ⟨false, []⟩⟩,
        { wDB with
          classes := wDB.classes ++ [classInsertRow wPayloadFree "u1" 0 "n1"]
          class_enrollments := wDB.class_enrollments ++
            (jsSetDedup wPayloadFree.studentIds).map
              (fun s => EnrollmentRow.mk "n1" s) })) :=
  ⟨importScheduleRow_idempotent_by_signature.1 wDB wImportC2 "c2" 0 none (-5) false
    (by rfl) (by rfl) (by decide) (by rfl),
   importScheduleRow_idempotent_by_signature.2.1 wDB wImportC2 "u1" 0 "n1" false
    wClass2 ⟨"c2", "s1"⟩ "s1" (by decide) (by rfl) (by decide) (by rfl) (by rfl),
   importScheduleRow_idempotent_by_signature.2.2.1 wDB
    { wImportC2 with studentIds := ["s2"] } "u1" 0 "n1" wClass2
    ⟨"REGULAR_MULTI", "RM", "[RM]", 8⟩ "s2" (by decide) (by rfl) (by decide) (by rfl)
    (by rfl) (by rfl) (by decide),
   importScheduleRow_idempotent_by_signature.2.2.2.1 wDB
    { instructorId := "i1", studentIds := ["s2"], subjectCode := "MATH",
      classTypeCode := "ONE_TO_ONE", note := "n",
      scheduleMode := ScheduleMode.recurring, weekday := some 1,
      activeFrom := some 0, startTime := 600, endTime := 660 } "u1" 0 "n1" false
    wClass1 ⟨"ONE_TO_ONE", "1:1", "[1:1]", 1⟩ "s2" (by decide) (by rfl) (by decide)
    (by rfl) (by rfl) (by rfl) (by decide),
   importScheduleRow_idempotent_by_signature.2.2.2.2.1 wDB wPayload "u1" 0 "n1" false
    ⟨"", ⟨true, [("c1", "no double one-to-one")]⟩⟩ wDB (by decide) (by decide)
    (by rfl) (by rfl),
   importScheduleRow_idempotent_by_signature.2.2.2.2.2 wDB wPayloadFree "u1" 0 "n1"
    ⟨false, []⟩ ⟨"REGULAR_MULTI", "RM", "[RM]", 8⟩ "s2" (by decide) (by rfl)
    (by decide) (by rfl) (by rfl) (by decide) (by rfl) (by rfl) (by decide)⟩

/-- C9: when the Move-variant conflict check against the destination week
reports a conflict, `moveScheduleSlot` returns moved=false with the conflict
and performs no write (the store, and with it the definition's stored weekday,
class_date, start_time, end_time and status logs, is unchanged); on a
conflict-free check it updates the slot and appends a StatusLogEntry noting
the move. -/
theorem moveScheduleSlot_conflict_no_write :
    (∀ db classId target actor classRow conflict endT,
      db.classes.find? (fun r => r.id == classId) = some classRow →
      addMinutes target.startTime
        (max 30 ((classRow.end_time : Int) - (classRow.start_time : Int))).toNat = endT →
      checkMoveConflictForWeek db
        ⟨classId, classRow.instructor_id, classRow.class_type_code,
          target.weekStart, target.weekday, target.startTime, endT⟩ =
        Except.ok conflict →
      conflict.hasConflict = true →
      moveScheduleSlot db classId target actor =
        (Except.ok ⟨false, conflict, none⟩, db)) ∧
    (∀ db classId target actor classRow conflict endT newClasses,
      db.classes.find? (fun r => r.id == classId) = some classRow →
      addMinutes target.startTime
        (max 30 ((classRow.end_time : Int) - (classRow.start_time : Int))).toNat = endT →
      checkMoveConflictForWeek db
        ⟨classId, classRow.instructor_id, classRow.class_type_code,
          target.weekStart, target.weekday, target.startTime, endT⟩ =
        Except.ok conflict →
      conflict.hasConflict = false →
      db.classes.map (fun r : ClassRow =>
        if r.id == classId then
          if classRow.schedule_mode == ScheduleMode.recurring then
            { r with
              weekday := some target.weekday
              start_time := target.startTime
              end_time := endT }
          else
            { r with
              class_date := some (addDays target.weekStart (target.weekday - 1))
              start_time := target.startTime
              end_time := endT }
        else r) = newClasses →
      moveScheduleSlot db classId target actor =
        (Except.ok ⟨true, conflict,
          (newClasses.find? (fun r => r.id == classId)).map (fun r : ClassRow =>
            MoveUpdated.mk r.id r.weekday r.class_date r.start_time r.end_time)⟩,
          { db with
            classes := newClasses
            class_status_logs := db.class_status_logs ++
              [StatusLogRow.mk classId ScheduleStatus.planned (some actor)
                (some ("drag-move:" ++ toString target.weekday ++ ":" ++
                  toString target.startTime))] })) := by
  constructor
  · intro db classId target actor classRow conflict endT hfind hend hconf hhc
    unfold moveScheduleSlot
    simp only [hfind, hend, hconf, hhc]
    rw [if_pos trivial]
  · intro db classId target actor classRow conflict endT newClasses hfind hend hconf hhc hmap
    unfold moveScheduleSlot
    simp only [hfind, hend, hconf, hhc, hmap]
    rw [if_neg Bool.false_ne_true]

/-- Witness for C9: moving `c2` onto Monday 10:30 collides with `c1` and leaves
the store untouched; moving it to Friday succeeds, rewrites the slot and logs
the move. -/
theorem moveScheduleSlot_conflict_no_write_witness :
    moveScheduleSlot wDB "c2" ⟨1, 4, 630⟩ "u1" =
      (Except.ok ⟨false, ⟨true, [("c1", "blocked")]⟩, none⟩, wDB) ∧
    moveScheduleSlot wDB "c2" ⟨5, 4, 600⟩ "u1" =
      (Except.ok ⟨true, ⟨false, []⟩, some ⟨"c2", some 5, none, 600, 660⟩⟩,
        { wDB with
          classes := [wClass1, { wClass2 with weekday := some 5 }, wClass3]
          class_status_logs := wDB.class_status_logs ++
            [StatusLogRow.mk "c2" ScheduleStatus.planned (some "u1")
              (some "drag-move:5:600")] }) :=
  ⟨moveScheduleSlot_conflict_no_write.1 wDB "c2" ⟨1, 4, 630⟩ "u1" wClass2
    ⟨true, [("c1", "blocked")]⟩ 690 (by rfl) (by rfl) (by rfl) (by rfl),
   moveScheduleSlot_conflict_no_write.2 wDB "c2" ⟨5, 4, 600⟩ "u1" wClass2
    ⟨false, []⟩ 660 [wClass1, { wClass2 with weekday := some 5 }, wClass3]
    (by rfl) (by rfl) (by rfl) (by rfl) (by rfl)⟩

/-- C10: when `importScheduleRow` finds an exact-signature match it considers
only the first element of the deduplicated student list — the call behaves
exactly as if the payload carried that single student, so every additional
student id is silently ignored in that branch — whereas the no-match branch
(delegating to `createScheduleWithEnrollments`) enrolls all deduplicated
students. -/
theorem importScheduleRow_first_student_only :
    (∀ db payload actor today nid f sid exact,
      validateSchedulePayload { payload with studentIds := jsSetDedup payload.studentIds } =
        [] →
      validateSchedulePayload { payload with studentIds := [sid] } = [] →
      (jsSetDedup payload.studentIds).headD "" = sid → ¬ sid = "" →
      (db.classes.filter (exactSignatureMatch payload)).head? = some exact →
      importScheduleRow db payload actor today nid f =
        importScheduleRow db { payload with studentIds := [sid] } actor today nid f) ∧
    (∀ db payload actor today nid conflict classType sid,
      validateSchedulePayload { payload with studentIds := jsSetDedup payload.studentIds } =
        [] →
      (jsSetDedup payload.studentIds).headD "" = sid → ¬ sid = "" →
      (db.classes.filter (exactSignatureMatch payload)).head? = none →
      getClassType db payload.classTypeCode = Except.ok classType →
      ¬ (jsSetDedup payload.studentIds).length > classType.maxStudents →
      checkScheduleConflict db { payload with studentIds := jsSetDedup payload.studentIds }
        today none = Except.ok conflict →
      conflict.hasConflict = false →
      (importScheduleRow db payload actor today nid false).2.class_enrollments =
        db.class_enrollments ++ (jsSetDedup payload.studentIds).map
          (fun s => EnrollmentRow.mk nid s)) := by
  constructor
  · intro db payload actor today nid f sid exact hv hv1 hsid hsidne hex
    have hdd : jsSetDedup [sid] = [sid] := rfl
    have hsm : exactSignatureMatch { payload with studentIds := [sid] } =
        exactSignatureMatch payload := rfl
    have hwid : importWiden db { payload with studentIds := [sid] } =
        importWiden db payload := rfl
    unfold importScheduleRow
    simp only [hdd, hsm, hwid, hv, hv1, hsid, hsidne, take_one_head?, hex,
      List.headD_cons, if_true, if_false]
  · intro db payload actor today nid conflict classType sid hv hsid hsidne hex0 hct hcap
      hconf hhc
    have hcr : createScheduleWithEnrollments db payload actor today nid false =
        (Except.ok ⟨nid, conflict⟩,
          { db with
            classes := db.classes ++ [classInsertRow payload actor today nid]
            class_enrollments := db.class_enrollments ++
              (jsSetDedup payload.studentIds).map (fun s => EnrollmentRow.mk nid s) }) := by
      unfold createScheduleWithEnrollments
      simp only [hv, hct, hconf, hhc]
      rw [if_pos trivial, if_neg hcap, if_neg Bool.false_ne_true,
        if_neg Bool.false_ne_true]
    have hfull : importScheduleRow db payload actor today nid false =
        (Except.ok ⟨ImportStatus.created, nid, conflict⟩,
          { db with
            classes := db.classes ++ [classInsertRow payload actor today nid]
            class_enrollments := db.class_enrollments ++
              (jsSetDedup payload.studentIds).map (fun s => EnrollmentRow.mk nid s) }) := by
      unfold importScheduleRow
      simp only [hv, hsid, take_one_head?, hex0, hcr, hhc]
      rw [if_pos trivial, if_neg (hsid ▸ hsidne), if_neg Bool.false_ne_true]
    rw [hfull]

/-- Witness for C10: importing a two-student row against the existing `c2`
behaves exactly like importing only the first student, while the no-match
create path enrolls both deduplicated students. -/
theorem importScheduleRow_first_student_only_witness :
    importScheduleRow wDB { wImportC2 with studentIds := ["s1", "s2"] } "u1" 0 "n1" false =
      importScheduleRow wDB
        { { wImportC2 with studentIds := ["s1", "s2"] } with studentIds := ["s1"] }
        "u1" 0 "n1" false ∧
    (importScheduleRow wDB { wPayloadFree with studentIds := ["s1", "s2"] }
        "u1" 0 "n1" false).2.class_enrollments =
      wDB.class_enrollments ++
        (jsSetDedup ({ wPayloadFree with studentIds := ["s1", "s2"] } :
          CreateScheduleRequest).studentIds).map (fun s => EnrollmentRow.mk "n1" s) :=
  ⟨importScheduleRow_first_student_only.1 wDB
    { wImportC2 with studentIds := ["s1", "s2"] } "u1" 0 "n1" false "s1" wClass2
    (by decide) (by decide) (by rfl) (by decide) (by rfl),
   importScheduleRow_first_student_only.2 wDB
    { wPayloadFree with studentIds := ["s1", "s2"] } "u1" 0 "n1" ⟨false, []⟩
    ⟨"REGULAR_MULTI", "RM", "[RM]", 8⟩ "s1" (by decide) (by rfl) (by decide) (by rfl)
    (by rfl) (by decide) (by rfl) (by rfl)⟩
